import Mathlib

/-!
# Verification of the Comforters-Lodge API against its specification

Shallow embedding of the repository's Python code (Django + FastAPI backend for
daily lessons, daily devotionals and hymns).  The heart of the code is the
bulk-import TSV parser `parse_tsv_bytes` in `lodge/utils.py`; the rest is thin
CRUD over three tables declared in `lodge/models.py`, exposed by the routes in
`lodge/fastapi_app.py` (the only module mounted by `comforterslodge/asgi.py`)
and by the unmounted helpers in `lodge/api_features/`.

Modelling conventions:
* Python strings are Lean `String`s; `str.strip()` is modelled by `pyStrip`
  (drop ASCII whitespace on both ends) and `str.replace` by `pyReplace`,
  a left-to-right non-overlapping scan, both defined over `List Char` so that
  every theorem can be checked by evaluation.
* A `csv.DictReader` row is a `PyDict`: an insertion-ordered association list
  from `Option String` (the `none` key is the reader's rest key for overflow
  fields) to `PyVal`.  `dictInsert` updates an existing key in place, as a
  Python dict does; `makeRow` reproduces `DictReader.__next__`'s construction
  of a row from the header and the raw tab-separated fields, and blank lines
  (which the reader skips) are filtered out before row processing.
* `date.fromisoformat` is modelled by `dateFromIso`, the `YYYY-MM-DD` calendar
  grammar the code's own error message documents.
* Exceptions become the `Except PyErr` monad; a Python statement that raises
  `AttributeError`/`TypeError`/`IntegrityError` is an `.error` of the matching
  `PyErr` constructor, and `ValueError msg` keeps its message.
* The database is explicit state: each endpoint takes a store and returns the
  (possibly unchanged) store next to its `Except` outcome, with Django's
  `transaction.atomic` giving all-or-nothing semantics to bulk inserts.
-/

set_option maxRecDepth 10000

namespace Lodge

/-! ## Python-side primitive values -/

/-- A calendar date as produced by `datetime.date.fromisoformat`. -/
structure PyDate where
  year : Nat
  month : Nat
  day : Nat
deriving Repr, DecidableEq

/-- The values that can appear in a parsed TSV row dict: strings, `None`
(the `restval` used by `csv.DictReader` for short rows), the list the reader
stores under its rest key for overflow fields, and the `datetime.date` that
`_parse_date` writes back into the row. -/
inductive PyVal where
  | vStr (s : String)
  | vNone
  | vList (l : List String)
  | vDate (d : PyDate)
deriving Repr, DecidableEq

/-- Python exceptions relevant to the embedded code.  `valueError` carries the
message built by the parser; the others are distinguishable error kinds raised
by the runtime or the database driver. -/
inductive PyErr where
  | valueError (msg : String)
  | attributeError
  | typeError
  | integrityError
deriving Repr, DecidableEq

/-- Outcome of an HTTP endpoint: an intentional `HTTPException`
(status code + detail) or an uncaught Python exception (a 500). -/
inductive ApiErr where
  | http (status : Nat) (detail : String)
  | crash (e : PyErr)
deriving Repr, DecidableEq

/-! ## String primitives (`str.strip`, `str.replace`) -/

/-- `str.strip()` on the character list: drop whitespace from both ends. -/
def stripChars (l : List Char) : List Char :=
  ((l.dropWhile Char.isWhitespace).reverse.dropWhile Char.isWhitespace).reverse

/-- Embedding of Python `str.strip()` (no argument): remove leading and
trailing whitespace. -/
def pyStrip (s : String) : String :=
  String.mk (stripChars s.toList)

/-- One pass of Python `str.replace`, written with explicit fuel so that the
kernel can evaluate it (each step consumes at least one character, so fuel
equal to the input length never runs out): scan left to right, replacing each
non-overlapping occurrence of `pat` by `rep`; the replacement text is not
rescanned.  An empty pattern leaves the list unchanged (the embedded code only
uses non-empty patterns). -/
def replaceCharsGo (pat rep : List Char) : Nat → List Char → List Char
  | _, [] => []
  | 0, l => l
  | fuel + 1, c :: rest =>
    if pat.isPrefixOf (c :: rest) ∧ pat ≠ [] then
      rep ++ replaceCharsGo pat rep fuel ((c :: rest).drop pat.length)
    else
      c :: replaceCharsGo pat rep fuel rest

/-- The scan of `replaceCharsGo`, started with sufficient fuel. -/
def replaceChars (pat rep l : List Char) : List Char :=
  replaceCharsGo pat rep l.length l

/-- Embedding of Python `str.replace(pat, rep)`. -/
def pyReplace (s pat rep : String) : String :=
  String.mk (replaceChars pat.toList rep.toList s.toList)

/-! ## Row dicts (`csv.DictReader` output) -/

/-- A Python dict as the TSV reader produces it: insertion-ordered association
list; the key `none` stands for the reader's rest key (`None`). -/
abbrev PyDict := List (Option String × PyVal)

/-- `d[k] = v` on a Python dict: update the value in place when the key is
already present (keeping its position), otherwise append the binding. -/
def dictInsert (d : PyDict) (k : Option String) (v : PyVal) : PyDict :=
  if d.any (fun p => p.1 = k) then
    d.map (fun p => if p.1 = k then (k, v) else p)
  else
    d ++ [(k, v)]

/-- `d.get(k)` on a Python dict: `none` when the key is absent. -/
def dictGet (d : PyDict) (k : Option String) : Option PyVal :=
  (d.find? (fun p => p.1 = k)).map (fun p => p.2)

/-- Insert a sequence of bindings, left to right. -/
def insertAll (d : PyDict) (ps : List (Option String × PyVal)) : PyDict :=
  ps.foldl (fun d p => dictInsert d p.1 p.2) d

/-- The bindings `csv.DictReader.__next__` writes for one raw row:
`dict(zip(fieldnames, row))`, then either the overflow fields under the rest
key (`None`) or `restval = None` for each missing trailing column. -/
def rowPairs (fieldnames fields : List String) : List (Option String × PyVal) :=
  (List.zip fieldnames fields).map (fun p => (some p.1, PyVal.vStr p.2)) ++
    (if fieldnames.length < fields.length then
      [(none, PyVal.vList (fields.drop fieldnames.length))]
    else
      (fieldnames.drop fields.length).map (fun k => (some k, PyVal.vNone)))

/-- The row dict `csv.DictReader` yields for one raw (non-blank) line. -/
def makeRow (fieldnames fields : List String) : PyDict :=
  insertAll [] (rowPairs fieldnames fields)

/-! ## `lodge/utils.py` -/

/-- `REQUIRED_LESSON_TSV_COLUMNS`. -/
def REQUIRED_LESSON_TSV_COLUMNS : List String :=
  ["series_title", "personal_question", "theme", "opening_hook", "biblical_qa",
   "reflection", "story", "prayer", "activity_guide", "date_posted"]

/-- `REQUIRED_DEVOTIONAL_TSV_COLUMNS`. -/
def REQUIRED_DEVOTIONAL_TSV_COLUMNS : List String :=
  ["citation", "verse_content", "date_posted"]

/-- `HYMN_BASE_COLUMNS`. -/
def HYMN_BASE_COLUMNS : List String :=
  ["hymn_number", "hymn_title", "classification", "tune_ref", "cross_ref",
   "scripture", "chorus_title", "chorus"]

/-- `VERSE_PREFIX` (the constant is named `VERSE_PREFIX` in the source). -/
def versePref : String := "verse_"

/-- Python `str.startswith(pre)` as a character-list prefix test (equivalent
to the byte-level library test, but evaluable by the kernel). -/
def pyStartsWith (s pre : String) : Bool :=
  pre.toList.isPrefixOf s.toList

/-- `REQUIRED_COLUMNS_BY_TYPE` lookup; `none` models the `KeyError` branch. -/
def REQUIRED_COLUMNS_BY_TYPE (t : String) : Option (List String) :=
  if t = "LESSON" then some REQUIRED_LESSON_TSV_COLUMNS
  else if t = "DEVOTIONAL" then some REQUIRED_DEVOTIONAL_TSV_COLUMNS
  else none

/-- `_strip_row`: trim whitespace from every string value of the row. -/
def strip_row (row : PyDict) : PyDict :=
  row.map (fun p =>
    (p.1, match p.2 with
      | PyVal.vStr s => PyVal.vStr (pyStrip s)
      | v => v))

/-- Python `repr` of a list of strings, as interpolated into the
missing-columns error message. -/
def pyReprStrList (l : List String) : String :=
  "[" ++ String.intercalate ", " (l.map (fun s => "\u0027" ++ s ++ "\u0027")) ++ "]"

/-- `_require_header`: every required column must occur in the header. -/
def require_header (fieldnames required : List String) : Except PyErr Unit :=
  let missing := required.filter (fun c => ¬ fieldnames.contains c)
  if missing.isEmpty then Except.ok ()
  else Except.error (PyErr.valueError ("TSV header missing columns: " ++ pyReprStrList missing))

/-- The per-column test of `_require_non_empty`:
`v is None or (isinstance(v, str) and not v)` on `row.get(c)` (a missing key
also yields `None`). -/
def colBad (row : PyDict) (c : String) : Bool :=
  match dictGet row (some c) with
  | Option.none => true
  | some PyVal.vNone => true
  | some (PyVal.vStr s) => s.isEmpty
  | some _ => false

/-- `_require_non_empty`: each required column must be present with a
non-`None`, non-empty value; the first offending column raises. -/
def require_non_empty (row : PyDict) (cols : List String) (lineNo : Nat) : Except PyErr Unit :=
  match cols with
  | [] => Except.ok ()
  | c :: rest =>
    if colBad row c then
      Except.error (PyErr.valueError (s!"Row {lineNo}: \u0027{c}\u0027 is required."))
    else require_non_empty row rest lineNo

/-- Days in a month, Gregorian calendar (as `datetime.date` validates). -/
def daysInMonth (y m : Nat) : Nat :=
  if m = 2 then
    if y % 4 = 0 ∧ (y % 100 ≠ 0 ∨ y % 400 = 0) then 29 else 28
  else if m = 4 ∨ m = 6 ∨ m = 9 ∨ m = 11 then 30
  else 31

/-- `datetime.date.fromisoformat` on the `YYYY-MM-DD` grammar the parser's
error message documents: ten characters, digits in the digit slots, dashes in
positions 5 and 8, and a valid Gregorian date with year in `1..9999`. -/
def dateFromIso (s : String) : Option PyDate :=
  match s.toList with
  | [y1, y2, y3, y4, c5, m1, m2, c8, d1, d2] =>
    if (c5 = '-' ∧ c8 = '-' ∧ y1.isDigit ∧ y2.isDigit ∧ y3.isDigit ∧ y4.isDigit ∧
        m1.isDigit ∧ m2.isDigit ∧ d1.isDigit ∧ d2.isDigit) then
      let y := ((y1.toNat - 48) * 1000 + (y2.toNat - 48) * 100 +
                (y3.toNat - 48) * 10 + (y4.toNat - 48))
      let m := (m1.toNat - 48) * 10 + (m2.toNat - 48)
      let d := (d1.toNat - 48) * 10 + (d2.toNat - 48)
      if 1 ≤ y ∧ y ≤ 9999 ∧ 1 ≤ m ∧ m ≤ 12 ∧ 1 ≤ d ∧ d ≤ daysInMonth y m then
        some { year := y, month := m, day := d }
      else none
    else none
  | _ => none

/-- `_parse_date`: replace `row["date_posted"]` by the parsed date; any
exception inside the `try` (bad format, missing key, non-string value) is
converted to the line-numbered `ValueError`. -/
def parse_date (row : PyDict) (lineNo : Nat) : Except PyErr PyDict :=
  match dictGet row (some "date_posted") with
  | some (PyVal.vStr s) =>
    match dateFromIso s with
    | some d => Except.ok (dictInsert row (some "date_posted") (PyVal.vDate d))
    | Option.none => Except.error (PyErr.valueError s!"Row {lineNo}: date_posted must be YYYY-MM-DD.")
  | _ => Except.error (PyErr.valueError s!"Row {lineNo}: date_posted must be YYYY-MM-DD.")

/-- `_unescape_newlines`: literal `\r\n`, `\n`, `\r` become a real newline and
`\t` a real tab, in the source's replacement order. -/
def unescape_newlines (s : String) : String :=
  pyReplace (pyReplace (pyReplace (pyReplace s "\\r\\n" "\n") "\\n" "\n") "\\r" "\n") "\\t" "\t"

/-- The verse-collecting loop of `_extract_verses`: for each `verse_`-prefixed
column in header order take the row value, trim it when it is a string, skip it
when falsy or the placeholder `-`, otherwise unescape and keep it.  Unescaping
a truthy non-string value (impossible for well-formed rows but reachable in
principle) raises `AttributeError`. -/
def verseFold (row : PyDict) : List String → Except PyErr (List String)
  | [] => Except.ok []
  | col :: rest =>
    match dictGet row (some col) with
    | some (PyVal.vStr s) =>
      let v := pyStrip s
      if v = "" ∨ v = "-" then verseFold row rest
      else do
        let vs ← verseFold row rest
        Except.ok (unescape_newlines v :: vs)
    | some (PyVal.vList l) =>
      if l.isEmpty then verseFold row rest else Except.error PyErr.attributeError
    | some (PyVal.vDate _) => Except.error PyErr.attributeError
    | _ => verseFold row rest

/-- The `base_row` dict comprehension of `_extract_verses`:
`{k: _unescape_newlines(v) for k, v in row.items() if not k.startswith(verse_prefix)}`.
Calling `.startswith` on the reader's rest key (`None`) raises
`AttributeError`, as does `_unescape_newlines` on a non-string value. -/
def baseRowBuild : PyDict → Except PyErr PyDict
  | [] => Except.ok []
  | (k, v) :: rest =>
    match k with
    | Option.none => Except.error PyErr.attributeError
    | some ks =>
      if pyStartsWith ks versePref then baseRowBuild rest
      else
        match v with
        | PyVal.vStr s => do
          let r ← baseRowBuild rest
          Except.ok ((some ks, PyVal.vStr (unescape_newlines s)) :: r)
        | _ => Except.error PyErr.attributeError

/-- `_extract_verses`: split a hymn row into its base fields (unescaped) and
the ordered verse list. -/
def extract_verses (row : PyDict) (fieldnames : List String) :
    Except PyErr (PyDict × List String) := do
  let verses ← verseFold row (fieldnames.filter (fun c => pyStartsWith c versePref))
  let base ← baseRowBuild row
  Except.ok (base, verses)

/-- One parsed hymn item: `{"hymn": base_row, "verses": verses}`. -/
structure HymnItem where
  hymn : PyDict
  verses : List String
deriving Repr, DecidableEq

/-- The two return shapes of `parse_tsv_bytes`. -/
inductive ParseResult where
  | lessonRows (rows : List PyDict)
  | hymnItems (items : List HymnItem)
deriving Repr, DecidableEq

/-- The `HYMN` data-row loop of `parse_tsv_bytes` (`enumerate(reader, start=2)`
numbers the rows the reader yields, blank lines having been skipped). -/
def hymnRowsLoop (fieldnames : List String) : List (List String) → Nat →
    Except PyErr (List HymnItem)
  | [], _ => Except.ok []
  | raw :: rest, lineNo => do
    let row := strip_row (makeRow fieldnames raw)
    let _ ← require_non_empty row HYMN_BASE_COLUMNS lineNo
    let bv ← extract_verses row fieldnames
    if bv.2.isEmpty then
      Except.error (PyErr.valueError s!"Row {lineNo}: at least one verse is required.")
    else do
      let restItems ← hymnRowsLoop fieldnames rest (lineNo + 1)
      Except.ok ({ hymn := bv.1, verses := bv.2 } :: restItems)

/-- The `LESSON`/`DEVOTIONAL` data-row loop of `parse_tsv_bytes`. -/
def lessonRowsLoop (fieldnames required : List String) : List (List String) → Nat →
    Except PyErr (List PyDict)
  | [], _ => Except.ok []
  | raw :: rest, lineNo => do
    let row := strip_row (makeRow fieldnames raw)
    let _ ← require_non_empty row required lineNo
    let row2 ← parse_date row lineNo
    let restRows ← lessonRowsLoop fieldnames required rest (lineNo + 1)
    Except.ok (row2 :: restRows)

/-- `parse_tsv_bytes`, taken at the boundary after UTF-8(-BOM) decoding and
tab-splitting: `fieldnames` is the header line's column list and `rawRows` the
remaining lines' field lists (a blank line is the empty list, which the
`DictReader` skips). -/
def parse_tsv_bytes (fieldnames : List String) (rawRows : List (List String))
    (tsvContentType : String) : Except PyErr ParseResult :=
  if fieldnames.isEmpty then
    Except.error (PyErr.valueError "TSV appears to have no header row.")
  else
    let dataRows := rawRows.filter (fun r => ¬ r.isEmpty)
    if tsvContentType = "HYMN" then do
      let _ ← require_header fieldnames HYMN_BASE_COLUMNS
      if ¬ fieldnames.any (fun c => pyStartsWith c versePref) then
        Except.error (PyErr.valueError
          s!"TSV header must include at least one \u0027{versePref}…\u0027 column.")
      else do
        let items ← hymnRowsLoop fieldnames dataRows 2
        if items.isEmpty then
          Except.error (PyErr.valueError "TSV contains a header but no data rows.")
        else Except.ok (ParseResult.hymnItems items)
    else
      match REQUIRED_COLUMNS_BY_TYPE tsvContentType with
      | Option.none =>
        Except.error (PyErr.valueError
          "Invalid content type was provided. Use: LESSON, DEVOTIONAL, or HYMN.")
      | some required => do
        let _ ← require_header fieldnames required
        let rows ← lessonRowsLoop fieldnames required dataRows 2
        if rows.isEmpty then
          Except.error (PyErr.valueError "TSV contains a header but no data rows.")
        else Except.ok (ParseResult.lessonRows rows)

/-! ## `lodge/models.py` — persisted records and explicit storage state

`created_at` is an `auto_now_add` timestamp; it is modelled as a `Nat` drawn
from the store's clock.  Primary keys come from the store's `nextId` counter. -/

/-- A stored `DailyPost` row. -/
structure DailyPost where
  id : Nat
  series_title : String
  personal_question : String
  theme : String
  opening_hook : String
  biblical_qa : String
  reflection : String
  story : String
  prayer : String
  activity_guide : String
  date_posted : PyDate
  created_at : Nat
deriving Repr, DecidableEq

/-- A stored `DailyDevotion` row.  Note: the model defines no `cover_image`
field (that line is commented out in `models.py`). -/
structure DailyDevotion where
  id : Nat
  citation : String
  verse_content : String
  date_posted : PyDate
  created_at : Nat
deriving Repr, DecidableEq

/-- A stored `Hymn` row.  `Hymn.Meta` declares the unique constraint
`unique_hymn_number` on `hymn_number`. -/
structure Hymn where
  id : Nat
  hymn_number : Nat
  hymn_title : String
  classification : String
  tune_ref : String
  cross_ref : String
  scripture : String
  chorus_title : String
  chorus : String
  verses : List String
  created_at : Nat
deriving Repr, DecidableEq

/-- The `DailyPost` table plus the id/timestamp generators. -/
structure PostDB where
  rows : List DailyPost
  nextId : Nat
  now : Nat
deriving Repr, DecidableEq

/-- The `DailyDevotion` table plus the id/timestamp generators. -/
structure DevotionDB where
  rows : List DailyDevotion
  nextId : Nat
  now : Nat
deriving Repr, DecidableEq

/-- The `Hymn` table plus the id/timestamp generators. -/
structure HymnDB where
  rows : List Hymn
  nextId : Nat
  now : Nat
deriving Repr, DecidableEq

/-! ## Storage operations (Django ORM at the repository boundary) -/

/-- `DailyPost.objects.create(...)`: append a row with a fresh id and the
current timestamp; no constraint can fail on this table. -/
def postObjectsCreate (db : PostDB)
    (series_title personal_question theme opening_hook biblical_qa reflection
     story prayer activity_guide : String) (date_posted : PyDate) :
    DailyPost × PostDB :=
  let p : DailyPost :=
    { id := db.nextId, series_title := series_title,
      personal_question := personal_question, theme := theme,
      opening_hook := opening_hook, biblical_qa := biblical_qa,
      reflection := reflection, story := story, prayer := prayer,
      activity_guide := activity_guide, date_posted := date_posted,
      created_at := db.now }
  (p, { rows := db.rows ++ [p], nextId := db.nextId + 1, now := db.now + 1 })

/-- `DailyDevotion.objects.create(...)`. -/
def devotionObjectsCreate (db : DevotionDB)
    (citation verse_content : String) (date_posted : PyDate) :
    DailyDevotion × DevotionDB :=
  let d : DailyDevotion :=
    { id := db.nextId, citation := citation, verse_content := verse_content,
      date_posted := date_posted, created_at := db.now }
  (d, { rows := db.rows ++ [d], nextId := db.nextId + 1, now := db.now + 1 })

/-- `Hymn.objects.create(...)`: the `unique_hymn_number` constraint declared in
`Hymn.Meta` makes the database raise `IntegrityError` on a duplicate
`hymn_number` instead of writing anything. -/
def hymnObjectsCreate (db : HymnDB) (hymn_number : Nat)
    (hymn_title classification tune_ref cross_ref scripture chorus_title
     chorus : String) (verses : List String) :
    Except PyErr (Hymn × HymnDB) :=
  if db.rows.any (fun h => h.hymn_number = hymn_number) then
    Except.error PyErr.integrityError
  else
    let h : Hymn :=
      { id := db.nextId, hymn_number := hymn_number, hymn_title := hymn_title,
        classification := classification, tune_ref := tune_ref,
        cross_ref := cross_ref, scripture := scripture,
        chorus_title := chorus_title, chorus := chorus, verses := verses,
        created_at := db.now }
    Except.ok (h, { rows := db.rows ++ [h], nextId := db.nextId + 1, now := db.now + 1 })

/-! ## Row-field access as the bulk inserters perform it -/

/-- `r[c].strip()`: subscripting a missing key raises `KeyError` (modelled as
`typeError`, both uncaught kinds), `.strip()` on a non-string raises
`AttributeError`. -/
def rowGetStripped (r : PyDict) (c : String) : Except PyErr String :=
  match dictGet r (some c) with
  | Option.none => Except.error PyErr.typeError
  | some (PyVal.vStr s) => Except.ok (pyStrip s)
  | some _ => Except.error PyErr.attributeError

/-- `r.get(c, "").strip()`: a missing key falls back to the empty string. -/
def rowGetDefStripped (r : PyDict) (c : String) : Except PyErr String :=
  match dictGet r (some c) with
  | Option.none => Except.ok ""
  | some (PyVal.vStr s) => Except.ok (pyStrip s)
  | some _ => Except.error PyErr.attributeError

/-- `r["date_posted"]` where the parser has already written a date value. -/
def rowGetDate (r : PyDict) (c : String) : Except PyErr PyDate :=
  match dictGet r (some c) with
  | some (PyVal.vDate d) => Except.ok d
  | _ => Except.error PyErr.typeError

/-- Python `int(...)` on the (already stripped) `hymn_number` string of a bulk
hymn row: a non-empty decimal digit string, as the `PositiveIntegerField`
stores; anything else raises `ValueError` (uncaught in the insert loop). -/
def pyInt (s : String) : Except PyErr Nat :=
  if s ≠ "" ∧ s.toList.all Char.isDigit then Except.ok s.toNat!
  else Except.error (PyErr.valueError ("invalid literal for int() with base 10: " ++ s))

/-! ## `lodge/api_features/lessons.py` -/

/-- The insert loop of `_bulk_insert_posts`, threading the store. -/
def bulkInsertPostsLoop (db : PostDB) : List PyDict → Except PyErr (List DailyPost × PostDB)
  | [] => Except.ok ([], db)
  | r :: rest => do
    let st ← rowGetStripped r "series_title"
    let pq ← rowGetStripped r "personal_question"
    let th ← rowGetStripped r "theme"
    let oh ← rowGetStripped r "opening_hook"
    let bq ← rowGetStripped r "biblical_qa"
    let rf ← rowGetStripped r "reflection"
    let sy ← rowGetStripped r "story"
    let pr ← rowGetStripped r "prayer"
    let ag ← rowGetStripped r "activity_guide"
    let dp ← rowGetDate r "date_posted"
    let pdb := postObjectsCreate db st pq th oh bq rf sy pr ag dp
    let restRes ← bulkInsertPostsLoop pdb.2 rest
    Except.ok (pdb.1 :: restRes.1, restRes.2)

/-- The bulk branch of `_create_post` in `lodge/api_features/lessons.py`
(mode 2, `tsv_file` provided), at the boundary after reading and tab-splitting
the upload: `parse_tsv_bytes(raw, 'LESSON')` with `ValueError` converted to an
HTTP 400, then `_bulk_insert_posts` inside `transaction.atomic()` (a failure
anywhere in the loop rolls the store back). -/
def create_post_bulk (db : PostDB) (fieldnames : List String)
    (rawRows : List (List String)) : (Except ApiErr (List DailyPost)) × PostDB :=
  match parse_tsv_bytes fieldnames rawRows "LESSON" with
  | Except.error (PyErr.valueError m) => (Except.error (ApiErr.http 400 m), db)
  | Except.error e => (Except.error (ApiErr.crash e), db)
  | Except.ok (ParseResult.hymnItems _) =>
    -- unreachable: `parse_tsv_bytes` never returns the hymn shape for LESSON
    (Except.error (ApiErr.crash PyErr.typeError), db)
  | Except.ok (ParseResult.lessonRows rows) =>
    match bulkInsertPostsLoop db rows with
    | Except.ok res => (Except.ok res.1, res.2)
    | Except.error e => (Except.error (ApiErr.crash e), db)

/-- `_delete_post`: 404 when the id is absent, otherwise hard-delete. -/
def delete_post (db : PostDB) (postId : Nat) : (Except ApiErr (Bool × Nat)) × PostDB :=
  match db.rows.find? (fun p => p.id = postId) with
  | Option.none => (Except.error (ApiErr.http 404 "Post not found"), db)
  | some _ =>
    (Except.ok (true, postId),
     { db with rows := db.rows.filter (fun p => ¬ p.id = postId) })

/-- A partial update for a `DailyPost`: one optional slot per updatable
column.  `_edit_post` receives the provided fields as keyword arguments and
`setattr`s each one; the spec's §9 prescribes exactly this per-kind patch
reformulation of that reflection-driven loop. -/
structure PostPatch where
  series_title : Option String := Option.none
  personal_question : Option String := Option.none
  theme : Option String := Option.none
  opening_hook : Option String := Option.none
  biblical_qa : Option String := Option.none
  reflection : Option String := Option.none
  story : Option String := Option.none
  prayer : Option String := Option.none
  activity_guide : Option String := Option.none
  date_posted : Option PyDate := Option.none
deriving Repr, DecidableEq

/-- Number of fields the patch actually provides. -/
def postPatchCount (u : PostPatch) : Nat :=
  [u.series_title.isSome, u.personal_question.isSome, u.theme.isSome,
   u.opening_hook.isSome, u.biblical_qa.isSome, u.reflection.isSome,
   u.story.isSome, u.prayer.isSome, u.activity_guide.isSome,
   u.date_posted.isSome].count true

/-- The `setattr` loop of `_edit_post`: overwrite exactly the provided fields,
leave the rest untouched. -/
def applyPostPatch (p : DailyPost) (u : PostPatch) : DailyPost :=
  { p with
    series_title := u.series_title.getD p.series_title,
    personal_question := u.personal_question.getD p.personal_question,
    theme := u.theme.getD p.theme,
    opening_hook := u.opening_hook.getD p.opening_hook,
    biblical_qa := u.biblical_qa.getD p.biblical_qa,
    reflection := u.reflection.getD p.reflection,
    story := u.story.getD p.story,
    prayer := u.prayer.getD p.prayer,
    activity_guide := u.activity_guide.getD p.activity_guide,
    date_posted := u.date_posted.getD p.date_posted }

/-- `_edit_post`: 404 when the id is absent, otherwise apply the provided
fields and save. -/
def edit_post (db : PostDB) (postId : Nat) (u : PostPatch) :
    (Except ApiErr (List DailyPost)) × PostDB :=
  match db.rows.find? (fun p => p.id = postId) with
  | Option.none => (Except.error (ApiErr.http 404 "Post not found"), db)
  | some p =>
    let p2 := applyPostPatch p u
    (Except.ok [p2],
     { db with rows := db.rows.map (fun q => if q.id = postId then p2 else q) })

/-- Modelled from the spec: the PATCH route wiring for lessons.  The source
tree contains only the `_edit_post` helper — no module registers an update
route or builds its `update_data` argument — so the route layer is taken from
the spec's words: it keeps only the explicitly provided (non-null) form
fields, rejects a request that provides zero fields with a client error
("no fields provided"), and otherwise hands the field set to `_edit_post`. -/
def edit_post_endpoint (db : PostDB) (postId : Nat) (u : PostPatch) :
    (Except ApiErr (List DailyPost)) × PostDB :=
  if postPatchCount u = 0 then
    (Except.error (ApiErr.http 400 "no fields provided"), db)
  else edit_post db postId u

/-! ## `lodge/api_features/devotionals.py` -/

/-- The insert loop of `_bulk_insert_devotions`. -/
def bulkInsertDevotionsLoop (db : DevotionDB) :
    List PyDict → Except PyErr (List DailyDevotion × DevotionDB)
  | [] => Except.ok ([], db)
  | r :: rest => do
    let ci ← rowGetStripped r "citation"
    let vc ← rowGetStripped r "verse_content"
    let dp ← rowGetDate r "date_posted"
    let ddb := devotionObjectsCreate db ci vc dp
    let restRes ← bulkInsertDevotionsLoop ddb.2 rest
    Except.ok (ddb.1 :: restRes.1, restRes.2)

/-- The bulk branch of `_create_devotion` (the preceding empty-upload guard is
a byte-level check below this boundary): parse as `DEVOTIONAL`, `ValueError`
to HTTP 400, inserts inside one `transaction.atomic()`. -/
def create_devotion_bulk (db : DevotionDB) (fieldnames : List String)
    (rawRows : List (List String)) : (Except ApiErr (List DailyDevotion)) × DevotionDB :=
  match parse_tsv_bytes fieldnames rawRows "DEVOTIONAL" with
  | Except.error (PyErr.valueError m) => (Except.error (ApiErr.http 400 m), db)
  | Except.error e => (Except.error (ApiErr.crash e), db)
  | Except.ok (ParseResult.hymnItems _) =>
    -- unreachable: `parse_tsv_bytes` never returns the hymn shape for DEVOTIONAL
    (Except.error (ApiErr.crash PyErr.typeError), db)
  | Except.ok (ParseResult.lessonRows rows) =>
    match bulkInsertDevotionsLoop db rows with
    | Except.ok res => (Except.ok res.1, res.2)
    | Except.error e => (Except.error (ApiErr.crash e), db)

/-- `_delete_devotion` (`lodge/api_features/devotionals.py`, same body as
`delete_devotion` in `lodge/fastapi_app.py`): 404 when the id is absent;
otherwise the body evaluates `d.cover_image` for the storage-cleanup check,
but the `DailyDevotion` model defines no `cover_image` attribute (the field is
commented out in `models.py`), so the access raises `AttributeError` before
`d.delete()` is reached and the record is not removed. -/
def delete_devotion (db : DevotionDB) (devotionId : Nat) :
    (Except ApiErr (Bool × Nat)) × DevotionDB :=
  match db.rows.find? (fun d => d.id = devotionId) with
  | Option.none => (Except.error (ApiErr.http 404 "Devotional not found"), db)
  | some _ => (Except.error (ApiErr.crash PyErr.attributeError), db)

/-- A partial update for a `DailyDevotion` (see `PostPatch`). -/
structure DevotionPatch where
  citation : Option String := Option.none
  verse_content : Option String := Option.none
  date_posted : Option PyDate := Option.none
deriving Repr, DecidableEq

/-- Number of fields the devotional patch provides. -/
def devotionPatchCount (u : DevotionPatch) : Nat :=
  [u.citation.isSome, u.verse_content.isSome, u.date_posted.isSome].count true

/-- The `setattr` loop of `_edit_devotion`. -/
def applyDevotionPatch (d : DailyDevotion) (u : DevotionPatch) : DailyDevotion :=
  { d with
    citation := u.citation.getD d.citation,
    verse_content := u.verse_content.getD d.verse_content,
    date_posted := u.date_posted.getD d.date_posted }

/-- `_edit_devotion`: 404 when the id is absent, otherwise apply and save. -/
def edit_devotion (db : DevotionDB) (devotionId : Nat) (u : DevotionPatch) :
    (Except ApiErr (List DailyDevotion)) × DevotionDB :=
  match db.rows.find? (fun d => d.id = devotionId) with
  | Option.none => (Except.error (ApiErr.http 404 "Devotional not found"), db)
  | some d =>
    let d2 := applyDevotionPatch d u
    (Except.ok [d2],
     { db with rows := db.rows.map (fun q => if q.id = devotionId then d2 else q) })

/-- Modelled from the spec: the PATCH route wiring for devotionals (see
`edit_post_endpoint` — the source tree has only the `_edit_devotion` helper). -/
def edit_devotion_endpoint (db : DevotionDB) (devotionId : Nat) (u : DevotionPatch) :
    (Except ApiErr (List DailyDevotion)) × DevotionDB :=
  if devotionPatchCount u = 0 then
    (Except.error (ApiErr.http 400 "no fields provided"), db)
  else edit_devotion db devotionId u

/-! ## `lodge/api_features/hymns.py` -/

/-- The `int(hymn_data["hymn_number"])` read of `_bulk_create`: subscripting
the dict (a missing key would raise) and converting the string with `int`. -/
def hymnNumberRead (r : PyDict) : Except PyErr Nat :=
  match dictGet r (some "hymn_number") with
  | some (PyVal.vStr s) => pyInt s
  | _ => Except.error PyErr.typeError

/-- The insert loop of `_bulk_create` for hymns: the `IntegrityError` a
duplicate `hymn_number` raises aborts the loop (and the surrounding
`transaction.atomic()` discards the partial inserts). -/
def bulkInsertHymnsLoop (db : HymnDB) : List HymnItem → Except PyErr (List Hymn × HymnDB)
  | [] => Except.ok ([], db)
  | item :: rest => do
    let n ← hymnNumberRead item.hymn
    let ht ← rowGetStripped item.hymn "hymn_title"
    let cl ← rowGetStripped item.hymn "classification"
    let tr ← rowGetStripped item.hymn "tune_ref"
    let cr ← rowGetDefStripped item.hymn "cross_ref"
    let sc ← rowGetDefStripped item.hymn "scripture"
    let ct ← rowGetDefStripped item.hymn "chorus_title"
    let ch ← rowGetDefStripped item.hymn "chorus"
    let vs := item.verses.filterMap (fun v =>
      if pyStrip v = "" then Option.none else some (pyStrip v))
    let hdb ← hymnObjectsCreate db n ht cl tr cr sc ct ch vs
    let restRes ← bulkInsertHymnsLoop hdb.2 rest
    Except.ok (hdb.1 :: restRes.1, restRes.2)


/-- The bulk branch of `_create_hymn` (empty-upload guard below this
boundary): parse as `HYMN`, `ValueError` to HTTP 400, inserts inside one
`transaction.atomic()`; any `IntegrityError`/`ValueError` in the loop
propagates uncaught and the transaction rolls back. -/
def create_hymn_bulk (db : HymnDB) (fieldnames : List String)
    (rawRows : List (List String)) : (Except ApiErr (List Hymn)) × HymnDB :=
  match parse_tsv_bytes fieldnames rawRows "HYMN" with
  | Except.error (PyErr.valueError m) => (Except.error (ApiErr.http 400 m), db)
  | Except.error e => (Except.error (ApiErr.crash e), db)
  | Except.ok (ParseResult.lessonRows _) =>
    -- unreachable: `parse_tsv_bytes` never returns the flat shape for HYMN
    (Except.error (ApiErr.crash PyErr.typeError), db)
  | Except.ok (ParseResult.hymnItems items) =>
    match bulkInsertHymnsLoop db items with
    | Except.ok res => (Except.ok res.1, res.2)
    | Except.error e => (Except.error (ApiErr.crash e), db)

/-- The required-field test of `_create_hymn` single mode:
`v is None or (isinstance(v, str) and not v.strip())`. -/
def blankOpt (v : Option String) : Bool :=
  match v with
  | Option.none => true
  | some s => pyStrip s = ""

/-- The `missing` list of `_create_hymn` single mode, in the required dict's
insertion order. -/
def hymnMissingFields (hymn_number : Option Nat)
    (hymn_title classification tune_ref : Option String)
    (verses : Option (List String)) : List String :=
  (if hymn_number.isNone then ["hymn_number"] else []) ++
  (if blankOpt hymn_title then ["hymn_title"] else []) ++
  (if blankOpt classification then ["classification"] else []) ++
  (if blankOpt tune_ref then ["tune_ref"] else []) ++
  (if verses.getD [] = [] then ["verses"] else [])

/-- The single-create branch of `_create_hymn` (mode 2, no `tsv_file`):
the required-field check collects `hymn_number`, `hymn_title`,
`classification`, `tune_ref`, `verses` that are `None`, blank after trim, or
an empty verse list, and answers 400; otherwise `Hymn.objects.create` runs
with trimmed fields, optionals defaulted to `""`, and blank verses dropped.
A duplicate `hymn_number` makes the create raise `IntegrityError`, which no
handler catches. -/
def create_hymn_single (db : HymnDB) (hymn_number : Option Nat)
    (hymn_title classification tune_ref cross_ref scripture chorus_title
     chorus : Option String) (verses : Option (List String)) :
    (Except ApiErr (List Hymn)) × HymnDB :=
  let missing : List String :=
    hymnMissingFields hymn_number hymn_title classification tune_ref verses
  if missing ≠ [] then
    (Except.error (ApiErr.http 400
      s!"Missing required form fields: {pyReprStrList missing}"), db)
  else
    match hymn_number, hymn_title, classification, tune_ref, verses with
    | some n, some t, some c, some tr, some vs =>
      (match hymnObjectsCreate db n (pyStrip t) (pyStrip c) (pyStrip tr)
          (pyStrip (cross_ref.getD "")) (pyStrip (scripture.getD ""))
          (pyStrip (chorus_title.getD "")) (pyStrip (chorus.getD ""))
          (vs.filterMap (fun v => if pyStrip v = "" then Option.none else some (pyStrip v))) with
      | Except.ok hdb => (Except.ok [hdb.1], hdb.2)
      | Except.error e => (Except.error (ApiErr.crash e), db))
    | _, _, _, _, _ =>
      -- unreachable: `missing = []` forces every required option to be `some`
      (Except.error (ApiErr.crash PyErr.typeError), db)

/-! ## `lodge/fastapi_app.py` — the routes actually mounted by `asgi.py` -/

/-- Strict lexicographic order on calendar dates. -/
def dateLtProp (a b : PyDate) : Prop :=
  a.year < b.year ∨ (a.year = b.year ∧
    (a.month < b.month ∨ (a.month = b.month ∧ a.day < b.day)))

instance (a b : PyDate) : Decidable (dateLtProp a b) := by
  unfold dateLtProp; infer_instance

/-- The `DailyPost.Meta` default ordering `["-date_posted", "-created_at"]`:
`a` sorts no later than `b` when `a`'s date is later, or the dates tie and
`a`'s creation timestamp is no earlier. -/
def postMetaLE (a b : DailyPost) : Bool :=
  decide (dateLtProp b.date_posted a.date_posted ∨
    (b.date_posted = a.date_posted ∧ b.created_at ≤ a.created_at))

/-- The `DailyDevotion.Meta` default ordering `["-date_posted", "-created_at"]`. -/
def devotionMetaLE (a b : DailyDevotion) : Bool :=
  decide (dateLtProp b.date_posted a.date_posted ∨
    (b.date_posted = a.date_posted ∧ b.created_at ≤ a.created_at))

/-- `DailyPost.objects.all()` with no explicit `order_by`: the database
returns the table in the model's `Meta.ordering`.  The sort is one of the
orders the declaration permits (residual ties are database-chosen; every
theorem below uses only the pairwise ordering guarantee). -/
def allPostsMetaOrdered (db : PostDB) : List DailyPost :=
  db.rows.mergeSort postMetaLE

/-- `DailyDevotion.objects.all()` under `Meta.ordering`. -/
def allDevotionsMetaOrdered (db : DevotionDB) : List DailyDevotion :=
  db.rows.mergeSort devotionMetaLE

/-- `math.ceil(total / page_size)` for a positive `page_size` (the float
quotient is exact for any realistic table size). -/
def pyCeilDiv (a b : Nat) : Nat := (a + b - 1) / b

/-- The response shape of `GET /posts`. -/
structure PostsPage where
  posts : List DailyPost
  page : Nat
  total_pages : Nat
deriving Repr, DecidableEq

/-- `list_posts` (`GET /posts`, `page` query ≥ 1): `total_pages` is
`ceil(total_count / 10)` or `0` for an empty table, and the returned slice is
`qs[offset : offset + 10]` for `offset = (page - 1) * 10`.  The serializer
`post_to_out` copies fields one-for-one, so the page is given as the stored
records. -/
def list_posts (db : PostDB) (page : Nat) : PostsPage :=
  let qs := allPostsMetaOrdered db
  let total_count := qs.length
  let total_pages := if total_count > 0 then pyCeilDiv total_count 10 else 0
  let offset := (page - 1) * 10
  { posts := (qs.drop offset).take 10, page := page, total_pages := total_pages }

/-- `list_devotions` (`GET /devotions`): every devotion, in the model's
default ordering. -/
def list_devotions (db : DevotionDB) : List DailyDevotion :=
  allDevotionsMetaOrdered db

/-- The bulk branch of `create_post` in `lodge/fastapi_app.py` (the mounted
`POST /posts` route): its line 187 calls `parse_tsv_bytes(raw)` without the
required `tsv_content_type` positional argument, so the call raises
`TypeError` immediately; the `except ValueError` handler does not catch it,
no row is parsed, and no ORM call is reached. -/
def fastapi_create_post_bulk (db : PostDB) (fieldnames : List String)
    (rawRows : List (List String)) : (Except ApiErr (List DailyPost)) × PostDB :=
  (Except.error (ApiErr.crash PyErr.typeError), db)

/-! ## Specification-side expressions

These restate, in the spec's own words, what the verse folding is supposed to
produce from the raw tab-separated fields of one data row; the theorems below
compare them with what the embedded source code computes. -/

/-- The verse sequence the spec promises for one hymn data row: the values of
the `verse_`-prefixed columns taken in header-declared order, each trimmed,
with entries that are empty or the literal placeholder `-` excluded, and the
escape sequences replaced in every retained verse.  A column beyond the end of
a short row has no value and contributes nothing. -/
def claimVerses (fieldnames raw : List String) : List String :=
  (fieldnames.enum.filter (fun p => pyStartsWith p.2 versePref)).filterMap (fun p =>
    (raw.get? p.1).bind (fun v =>
      let t := pyStrip v
      if t ≠ "" ∧ t ≠ "-" then some (unescape_newlines t) else Option.none))

/-! ## Lemmas about the string primitives -/

theorem dropWhile_idem (p : α → Bool) (l : List α) :
    (l.dropWhile p).dropWhile p = l.dropWhile p := by
  cases h : l.dropWhile p with
  | nil => simp
  | cons a t =>
    have hh := List.head?_dropWhile_not p l
    rw [h] at hh
    simp only [List.head?_cons] at hh
    rw [List.dropWhile_cons_of_neg]
    simp [hh]

theorem stripChars_idem (l : List Char) : stripChars (stripChars l) = stripChars l := by
  unfold stripChars
  set p := Char.isWhitespace with hp
  set A := l.dropWhile p with hA
  set B := A.reverse.dropWhile p with hB
  have h1 : B.reverse.dropWhile p = B.reverse := by
    cases hBr : B.reverse with
    | nil => simp
    | cons a t =>
      have ha : p a = false := by
        have hhead : B.reverse.head? = some a := by rw [hBr]; rfl
        rw [List.head?_reverse] at hhead
        -- `B` is a suffix of `A.reverse`, so its last element is `A`'s head
        obtain ⟨u, hu⟩ := @List.dropWhile_suffix Char A.reverse p
        have hBne : B ≠ [] := by
          intro hBnil
          rw [hBnil] at hBr
          simp at hBr
        have hlast : A.reverse.getLast? = some a := by
          have h2 : A.reverse.getLast? = B.getLast?.or u.getLast? := by
            conv_lhs => rw [← hu]
            rw [List.getLast?_append, ← hB]
          rw [h2, hhead]
          rfl
        rw [List.getLast?_reverse] at hlast
        have hh := List.head?_dropWhile_not p l
        rw [← hA] at hh
        rw [hlast] at hh
        exact hh
      rw [List.dropWhile_cons_of_neg]
      simp [ha]
  rw [h1, List.reverse_reverse, hB, dropWhile_idem]

theorem pyStrip_idem (s : String) : pyStrip (pyStrip s) = pyStrip s := by
  unfold pyStrip
  congr 1
  have : (String.mk (stripChars s.toList)).toList = stripChars s.toList := rfl
  rw [this, stripChars_idem]

/-! ## Lemmas about the dict model -/

theorem dictInsert_of_not_mem (d : PyDict) (k : Option String) (v : PyVal)
    (h : d.any (fun p => p.1 = k) = false) : dictInsert d k v = d ++ [(k, v)] := by
  simp [dictInsert, h]

theorem dictGet_append_single (d : PyDict) (k k2 : Option String) (v : PyVal)
    (h : d.any (fun p => p.1 = k) = false) :
    dictGet (d ++ [(k, v)]) k2 = if k2 = k then some v else dictGet d k2 := by
  unfold dictGet
  rw [List.find?_append]
  by_cases hk : k2 = k
  · subst hk
    have hnone : d.find? (fun p => p.1 = k2) = none := by
      rw [List.find?_eq_none]
      intro x hx
      simp only [List.any_eq_false] at h
      intro hc
      exact absurd hc (by simpa using h x hx)
    rw [hnone]
    simp [List.find?]
  · have hne : ¬ (((k, v) : Option String × PyVal).1 = k2) := fun hc => hk hc.symm
    rw [List.find?_cons_of_neg _ (by simp only [decide_eq_true_eq]; exact hne),
      List.find?_nil]
    simp [hk]

theorem dictGet_map_update (d : PyDict) (k k2 : Option String) (v : PyVal) (hk : k2 ≠ k) :
    dictGet (d.map (fun p => if p.1 = k then (k, v) else p)) k2 = dictGet d k2 := by
  induction d with
  | nil => rfl
  | cons p d ih =>
    unfold dictGet
    by_cases hp : p.1 = k
    · simp only [List.map_cons, hp, if_pos rfl]
      rw [List.find?_cons_of_neg _
            (by simp only [decide_eq_true_eq]; exact fun hc => hk hc.symm),
          List.find?_cons_of_neg _
            (by simp only [decide_eq_true_eq]; exact fun hc => hk (hc.symm.trans hp))]
      exact ih
    · simp only [List.map_cons, if_neg hp]
      by_cases hp2 : p.1 = k2
      · rw [List.find?_cons_of_pos, List.find?_cons_of_pos] <;> simp [hp2]
      · rw [List.find?_cons_of_neg, List.find?_cons_of_neg]
        · exact ih
        · simp [hp2]
        · simp [hp2]

theorem dictGet_map_update_self (d : PyDict) (k : Option String) (v : PyVal)
    (h : d.any (fun p => p.1 = k) = true) :
    dictGet (d.map (fun p => if p.1 = k then (k, v) else p)) k = some v := by
  induction d with
  | nil => simp at h
  | cons p d ih =>
    by_cases hp : p.1 = k
    · simp only [List.map_cons, hp, if_pos rfl]
      unfold dictGet
      rw [List.find?_cons_of_pos] <;> simp
    · simp only [List.map_cons, if_neg hp]
      unfold dictGet
      rw [List.find?_cons_of_neg]
      · apply ih
        simp only [List.any_cons, hp] at h
        simpa using h
      · simp [hp]

theorem dictGet_dictInsert (d : PyDict) (k : Option String) (v : PyVal) (k2 : Option String) :
    dictGet (dictInsert d k v) k2 = if k2 = k then some v else dictGet d k2 := by
  by_cases hany : d.any (fun p => p.1 = k)
  · unfold dictInsert
    rw [if_pos hany]
    by_cases hk : k2 = k
    · subst hk; rw [if_pos rfl]; exact dictGet_map_update_self d k2 v hany
    · rw [if_neg hk]; exact dictGet_map_update d k k2 v hk
  · rw [dictInsert_of_not_mem d k v (Bool.eq_false_iff.mpr hany)]
    exact dictGet_append_single d k k2 v (Bool.eq_false_iff.mpr hany)



theorem insertAll_eq_append (ps : List (Option String × PyVal)) :
    ∀ (d : PyDict), ((d ++ ps).map Prod.fst).Nodup → insertAll d ps = d ++ ps := by
  induction ps with
  | nil => intro d _; simp [insertAll]
  | cons p ps ih =>
    intro d h
    have hfresh : d.any (fun q => q.1 = p.1) = false := by
      rw [List.any_eq_false]
      intro q hq
      simp only [decide_eq_true_eq]
      intro hc
      have hmem1 : p.1 ∈ (d.map Prod.fst) := hc ▸ List.mem_map_of_mem Prod.fst hq
      have hmem2 : p.1 ∈ ((p :: ps).map Prod.fst) := by simp
      have hdisj := List.disjoint_of_nodup_append (by simpa using h)
      exact hdisj hmem1 hmem2
    have step : insertAll d (p :: ps) = insertAll (d ++ [p]) ps := by
      simp only [insertAll, List.foldl_cons]
      rw [dictInsert_of_not_mem d p.1 p.2 hfresh]
    rw [step, ih (d ++ [p]) (by simpa using h)]
    simp

theorem map_fst_zip_general (l1 : List α) (l2 : List β) :
    (l1.zip l2).map Prod.fst = l1.take l2.length := by
  induction l1 generalizing l2 with
  | nil => simp
  | cons a l ih =>
    cases l2 with
    | nil => simp
    | cons b l2 => simp [ih]

theorem rowPairs_keys_nodup (f raw : List String) (hnd : f.Nodup) :
    ((rowPairs f raw).map Prod.fst).Nodup := by
  unfold rowPairs
  rw [List.map_append, List.map_map]
  have hz : ((f.zip raw).map (Prod.fst ∘ fun p => ((some p.1 : Option String), PyVal.vStr p.2)))
      = (f.take raw.length).map some := by
    have : (Prod.fst ∘ fun p : String × String => ((some p.1 : Option String), PyVal.vStr p.2))
        = (fun p : String × String => (some p.1 : Option String)) := rfl
    rw [this]
    have := map_fst_zip_general f raw
    calc (f.zip raw).map (fun p : String × String => (some p.1 : Option String))
        = ((f.zip raw).map Prod.fst).map some := by rw [List.map_map]; rfl
      _ = (f.take raw.length).map some := by rw [this]
  rw [hz]
  by_cases hlen : f.length < raw.length
  · rw [if_pos hlen]
    have htake : f.take raw.length = f := List.take_of_length_le (by omega)
    rw [htake]
    apply List.Nodup.append
    · exact hnd.map (fun a b => by simp)
    · simp
    · intro x hx hx2
      simp at hx2
      subst hx2
      simp at hx
  · rw [if_neg hlen]
    rw [List.map_map]
    have : (Prod.fst ∘ fun k : String => ((some k : Option String), PyVal.vNone)) = some := rfl
    rw [this]
    rw [← List.map_append]
    apply List.Nodup.map (fun a b => by simp)
    rw [List.take_append_drop]
    exact hnd

theorem makeRow_eq_rowPairs (f raw : List String) (hnd : f.Nodup) :
    makeRow f raw = rowPairs f raw := by
  unfold makeRow
  rw [insertAll_eq_append (rowPairs f raw) [] (by simpa using rowPairs_keys_nodup f raw hnd)]
  simp


theorem find?_zipPairs (f : List String) :
    ∀ (raw : List String) (j : Nat) (hj : j < f.length), f.Nodup →
    ((f.zip raw).map (fun p => ((some p.1 : Option String), PyVal.vStr p.2))).find?
      (fun q => q.1 = some (f.get ⟨j, hj⟩)) =
    if h : j < raw.length then
      some (some (f.get ⟨j, hj⟩), PyVal.vStr (raw.get ⟨j, h⟩))
    else none := by
  induction f with
  | nil => intro raw j hj _; exact absurd hj (by simp)
  | cons a f ih =>
    intro raw j hj hnd
    cases raw with
    | nil => simp
    | cons b raw =>
      cases j with
      | zero =>
        simp only [List.zip_cons_cons, List.map_cons, List.get]
        rw [List.find?_cons_of_pos _ (by simp)]
        simp
      | succ j =>
        have hj2 : j < f.length := by simpa using hj
        have hane : a ∉ f := (List.nodup_cons.mp hnd).1
        have hne : a ≠ f.get ⟨j, hj2⟩ := by
          intro hc
          exact hane (hc ▸ List.get_mem f j hj2)
        simp only [List.zip_cons_cons, List.map_cons]
        have hgets : (a :: f).get ⟨j + 1, hj⟩ = f.get ⟨j, hj2⟩ := rfl
        rw [hgets]
        rw [List.find?_cons_of_neg _ (by simp only [decide_eq_true_eq, Option.some_inj]; exact hne)]
        rw [ih raw j hj2 (List.nodup_cons.mp hnd).2]
        by_cases h : j < raw.length
        · rw [dif_pos h, dif_pos (by simpa using Nat.succ_lt_succ h)]
          rfl
        · rw [dif_neg h, dif_neg (by simpa using fun hc => h (Nat.lt_of_succ_lt_succ hc))]

theorem find?_vNonePairs (l : List String) (c : String) :
    (l.map (fun k => ((some k : Option String), PyVal.vNone))).find?
      (fun q => q.1 = some c) =
    if c ∈ l then some (some c, PyVal.vNone) else none := by
  induction l with
  | nil => simp
  | cons a l ih =>
    by_cases hac : a = c
    · subst hac
      simp only [List.map_cons]
      rw [List.find?_cons_of_pos _ (by simp)]
      simp
    · simp only [List.map_cons]
      rw [List.find?_cons_of_neg _ (by simp only [decide_eq_true_eq, Option.some_inj]; exact hac)]
      rw [ih]
      by_cases hcl : c ∈ l
      · rw [if_pos hcl, if_pos (List.mem_cons_of_mem a hcl)]
      · have hno : c ∉ a :: l := by
          intro hmem
          rcases List.mem_cons.mp hmem with h | h
          · exact hac h.symm
          · exact hcl h
        rw [if_neg hcl, if_neg hno]

theorem dictGet_makeRow (f raw : List String) (hnd : f.Nodup) (j : Nat) (hj : j < f.length) :
    dictGet (makeRow f raw) (some (f.get ⟨j, hj⟩)) =
    some (if h : j < raw.length then PyVal.vStr (raw.get ⟨j, h⟩) else PyVal.vNone) := by
  rw [makeRow_eq_rowPairs f raw hnd]
  unfold rowPairs dictGet
  rw [List.find?_append]
  rw [find?_zipPairs f raw j hj hnd]
  by_cases h : j < raw.length
  · rw [dif_pos h, dif_pos h]
    rfl
  · rw [dif_neg h, dif_neg h]
    have hlen : ¬ f.length < raw.length := by omega
    rw [if_neg hlen]
    rw [find?_vNonePairs]
    have hmem : f.get ⟨j, hj⟩ ∈ f.drop raw.length := by
      rw [List.mem_iff_getElem?]
      refine ⟨j - raw.length, ?_⟩
      rw [List.getElem?_drop]
      have hidx : raw.length + (j - raw.length) = j := by omega
      rw [hidx, List.getElem?_eq_getElem hj, List.get_eq_getElem]
    rw [if_pos hmem]
    rfl



theorem dictGet_strip_row (d : PyDict) (k : Option String) :
    dictGet (strip_row d) k = (dictGet d k).map (fun v =>
      match v with
      | PyVal.vStr s => PyVal.vStr (pyStrip s)
      | v => v) := by
  induction d with
  | nil => rfl
  | cons p d ih =>
    simp only [strip_row, List.map_cons] at *
    by_cases hp : p.1 = k
    · unfold dictGet
      rw [List.find?_cons_of_pos _ (by simp [hp]), List.find?_cons_of_pos _ (by simp [hp])]
      rfl
    · unfold dictGet
      rw [List.find?_cons_of_neg _ (by simp [hp]), List.find?_cons_of_neg _ (by simp [hp])]
      exact ih

theorem req_ok_iff (row : PyDict) (cols : List String) (n : Nat) :
    require_non_empty row cols n = Except.ok () ↔ ∀ c ∈ cols, colBad row c = false := by
  induction cols with
  | nil => simp [require_non_empty]
  | cons c rest ih =>
    unfold require_non_empty
    by_cases hb : colBad row c
    · rw [if_pos hb]
      simp only [List.forall_mem_cons]
      constructor
      · intro h; exact absurd h (by simp)
      · intro h; rw [h.1] at hb; exact absurd hb (by simp)
    · rw [if_neg hb]
      simp only [List.forall_mem_cons, ih]
      constructor
      · intro h; exact ⟨Bool.eq_false_iff.mpr hb, h⟩
      · intro h; exact h.2

theorem dictGet_stripped_makeRow (f raw : List String) (hnd : f.Nodup) (j : Nat)
    (hj : j < f.length) :
    dictGet (strip_row (makeRow f raw)) (some (f.get ⟨j, hj⟩)) =
    some (if h : j < raw.length then PyVal.vStr (pyStrip (raw.get ⟨j, h⟩))
          else PyVal.vNone) := by
  rw [dictGet_strip_row, dictGet_makeRow f raw hnd j hj]
  by_cases h : j < raw.length
  · rw [dif_pos h, dif_pos h]; rfl
  · rw [dif_neg h, dif_neg h]; rfl

theorem verseFold_positional (f raw : List String) (hnd : f.Nodup)
    (cols : List (Nat × String))
    (hcols : ∀ p ∈ cols, ∃ hp : p.1 < f.length, f.get ⟨p.1, hp⟩ = p.2) :
    verseFold (strip_row (makeRow f raw)) (cols.map Prod.snd) =
    Except.ok (cols.filterMap (fun p =>
      (raw.get? p.1).bind (fun v =>
        let t := pyStrip v
        if t ≠ "" ∧ t ≠ "-" then some (unescape_newlines t) else Option.none))) := by
  induction cols with
  | nil => rfl
  | cons p cols ih =>
    obtain ⟨hp, hpe⟩ := hcols p (List.mem_cons_self p cols)
    have htail := ih (fun q hq => hcols q (List.mem_cons_of_mem p hq))
    simp only [List.map_cons, List.filterMap_cons]
    unfold verseFold
    rw [← hpe, dictGet_stripped_makeRow f raw hnd p.1 hp]
    by_cases h : p.1 < raw.length
    · rw [dif_pos h]
      have hget : raw.get? p.1 = some (raw.get ⟨p.1, h⟩) := List.get?_eq_get h
      rw [hget]
      simp only [pyStrip_idem, Option.some_bind]
      by_cases hv : pyStrip (raw.get ⟨p.1, h⟩) = "" ∨ pyStrip (raw.get ⟨p.1, h⟩) = "-"
      · rw [if_pos hv]
        have : ¬ (pyStrip (raw.get ⟨p.1, h⟩) ≠ "" ∧ pyStrip (raw.get ⟨p.1, h⟩) ≠ "-") := by
          intro hc
          rcases hv with hv | hv
          · exact hc.1 hv
          · exact hc.2 hv
        rw [if_neg this]
        exact htail
      · rw [if_neg hv]
        have : pyStrip (raw.get ⟨p.1, h⟩) ≠ "" ∧ pyStrip (raw.get ⟨p.1, h⟩) ≠ "-" := by
          constructor
          · exact fun hc => hv (Or.inl hc)
          · exact fun hc => hv (Or.inr hc)
        rw [if_pos this]
        rw [htail]
        rfl
    · rw [dif_neg h]
      have hget : raw.get? p.1 = none := List.get?_eq_none.mpr (by omega)
      rw [hget]
      simp only [Option.none_bind]
      exact htail

theorem verseFold_claimVerses (f raw : List String) (hnd : f.Nodup) :
    verseFold (strip_row (makeRow f raw)) (f.filter (fun c => pyStartsWith c versePref)) =
    Except.ok (claimVerses f raw) := by
  have hmap : (f.enum.filter (fun p => pyStartsWith p.2 versePref)).map Prod.snd
      = f.filter (fun c => pyStartsWith c versePref) := by
    have h1 : f.enum.map Prod.snd = f := by
      simp [List.enum, List.enumFrom_map_snd 0 f]
    conv_rhs => rw [← h1]
    rw [List.filter_map]
    rfl
  rw [← hmap]
  rw [verseFold_positional f raw hnd _ ?hmem]
  · rfl
  case hmem =>
    intro p hpmem
    have hpe : p ∈ f.enum := List.mem_of_mem_filter hpmem
    have := List.mem_enum_iff_getElem?.mp hpe
    have hlt : p.1 < f.length := by
      by_contra hc
      rw [List.getElem?_eq_none (by omega)] at this
      exact Option.noConfusion this
    refine ⟨hlt, ?_⟩
    rw [List.getElem?_eq_getElem hlt] at this
    have := Option.some.inj this
    rw [List.get_eq_getElem]
    exact this


/-- Acceptance test for one hymn data row, phrased with the embedded loop's
own building blocks: the base columns pass `_require_non_empty`,
`_extract_verses` raises nothing, and the folded verse list is non-empty. -/
def hymnRowAccepted (f raw : List String) : Bool :=
  match require_non_empty (strip_row (makeRow f raw)) HYMN_BASE_COLUMNS 0,
        extract_verses (strip_row (makeRow f raw)) f with
  | Except.ok _, Except.ok bv => ¬ bv.2.isEmpty
  | _, _ => false

@[simp] theorem except_error_bind {α β : Type} (e : PyErr) (f : α → Except PyErr β) :
    (Except.error e >>= f : Except PyErr β) = Except.error e := rfl

@[simp] theorem except_ok_bind {α β : Type} (a : α) (f : α → Except PyErr β) :
    (Except.ok a >>= f : Except PyErr β) = f a := rfl

theorem req_lineNo_irrelevant (row : PyDict) (cols : List String) (n m : Nat)
    (h : require_non_empty row cols n = Except.ok ()) :
    require_non_empty row cols m = Except.ok () :=
  (req_ok_iff row cols m).mpr ((req_ok_iff row cols n).mp h)

theorem extract_verses_snd (f raw : List String) (hnd : f.Nodup) (bv : PyDict × List String)
    (h : extract_verses (strip_row (makeRow f raw)) f = Except.ok bv) :
    bv.2 = claimVerses f raw := by
  unfold extract_verses at h
  rw [verseFold_claimVerses f raw hnd] at h
  cases hb : baseRowBuild (strip_row (makeRow f raw)) with
  | ok B =>
    rw [hb] at h
    simp only [except_ok_bind] at h
    cases h
    rfl
  | error e =>
    rw [hb] at h
    simp only [except_ok_bind, except_error_bind] at h
    cases h

theorem hymnRowsLoop_ok (f : List String) :
    ∀ (rows : List (List String)) (n : Nat) (items : List HymnItem),
      hymnRowsLoop f rows n = Except.ok items →
      items.length = rows.length ∧
      ∀ i (hi : i < items.length) (hi2 : i < rows.length),
        ∃ bv, extract_verses (strip_row (makeRow f (rows.get ⟨i, hi2⟩))) f = Except.ok bv ∧
          (items.get ⟨i, hi⟩).verses = bv.2 ∧ bv.2 ≠ [] := by
  intro rows
  induction rows with
  | nil =>
    intro n items h
    simp only [hymnRowsLoop] at h
    cases h
    exact ⟨rfl, fun i hi hi2 => absurd hi2 (by simp)⟩
  | cons raw rest ih =>
    intro n items h
    simp only [hymnRowsLoop] at h
    cases h1 : require_non_empty (strip_row (makeRow f raw)) HYMN_BASE_COLUMNS n with
    | error e =>
      rw [h1] at h
      simp only [except_error_bind] at h
      exact Except.noConfusion h
    | ok u =>
      rw [h1] at h
      simp only [except_ok_bind] at h
      cases h2 : extract_verses (strip_row (makeRow f raw)) f with
      | error e =>
        rw [h2] at h
        simp only [except_error_bind] at h
        exact Except.noConfusion h
      | ok bv =>
        rw [h2] at h
        simp only [except_ok_bind] at h
        by_cases h3 : bv.2.isEmpty
        · rw [if_pos (by simpa using h3)] at h
          exact Except.noConfusion h
        · rw [if_neg (by simpa using h3)] at h
          cases h4 : hymnRowsLoop f rest (n + 1) with
          | error e =>
            rw [h4] at h
            simp only [except_error_bind] at h
            exact Except.noConfusion h
          | ok restItems =>
            rw [h4] at h
            simp only [except_ok_bind] at h
            cases h
            obtain ⟨hlen, hall⟩ := ih (n + 1) restItems h4
            constructor
            · simp [hlen]
            · intro i hi hi2
              cases i with
              | zero =>
                refine ⟨bv, h2, rfl, ?_⟩
                intro hc
                rw [hc] at h3
                exact h3 rfl
              | succ i =>
                have hi' : i < restItems.length := by simpa using hi
                have hi2' : i < rest.length := by simpa using hi2
                exact hall i hi' hi2'


theorem hymnRowsLoop_fold_empty (f : List String) (hnd : f.Nodup) :
    ∀ (rows : List (List String)) (n i : Nat) (hi : i < rows.length),
      (∀ k (hk : k < i), hymnRowAccepted f (rows.get ⟨k, by omega⟩) = true) →
      require_non_empty (strip_row (makeRow f (rows.get ⟨i, hi⟩))) HYMN_BASE_COLUMNS 0 =
        Except.ok () →
      (∃ bv, extract_verses (strip_row (makeRow f (rows.get ⟨i, hi⟩))) f = Except.ok bv) →
      claimVerses f (rows.get ⟨i, hi⟩) = [] →
      hymnRowsLoop f rows n =
        Except.error (PyErr.valueError s!"Row {n + i}: at least one verse is required.") := by
  intro rows
  induction rows with
  | nil => intro n i hi; exact absurd hi (by simp)
  | cons raw rest ih =>
    intro n i hi hprev hreq hext hfold
    cases i with
    | zero =>
      replace hreq : require_non_empty (strip_row (makeRow f raw)) HYMN_BASE_COLUMNS 0 =
          Except.ok () := hreq
      replace hext : ∃ bv, extract_verses (strip_row (makeRow f raw)) f = Except.ok bv := hext
      replace hfold : claimVerses f raw = [] := hfold
      obtain ⟨bv, hbv⟩ := hext
      have hreq' : require_non_empty (strip_row (makeRow f raw)) HYMN_BASE_COLUMNS n =
          Except.ok () := req_lineNo_irrelevant _ _ 0 n hreq
      have hsnd : bv.2 = claimVerses f raw := extract_verses_snd f raw hnd bv hbv
      simp only [hymnRowsLoop]
      rw [hreq', except_ok_bind, hbv, except_ok_bind]
      rw [if_pos (by rw [hsnd, hfold]; rfl)]
      rw [Nat.add_zero]
    | succ i =>
      have h0' := hprev 0 (Nat.succ_pos i)
      have h0 : hymnRowAccepted f raw = true := h0'
      simp only [List.get_cons_succ] at hreq hext hfold
      unfold hymnRowAccepted at h0
      cases hr0 : require_non_empty (strip_row (makeRow f raw)) HYMN_BASE_COLUMNS 0 with
      | error e => rw [hr0] at h0; exact absurd h0 (by simp)
      | ok u =>
        cases he0 : extract_verses (strip_row (makeRow f raw)) f with
        | error e => rw [hr0, he0] at h0; exact absurd h0 (by simp)
        | ok bv0 =>
          rw [hr0, he0] at h0
          have hne0 : ¬ bv0.2.isEmpty := by
            cases u
            simpa using h0
          have hreq0' : require_non_empty (strip_row (makeRow f raw)) HYMN_BASE_COLUMNS n =
              Except.ok () := by
            cases u
            exact req_lineNo_irrelevant _ _ 0 n hr0
          simp only [hymnRowsLoop]
          rw [hreq0', except_ok_bind, he0, except_ok_bind]
          rw [if_neg (by simpa using hne0)]
          have hi' : i < rest.length := by simpa using hi
          have hrec := ih (n + 1) i hi'
            (fun k hk => by
              have := hprev (k + 1) (by omega)
              simpa using this)
            hreq hext hfold
          rw [hrec]
          have harith : n + 1 + i = n + (i + 1) := by omega
          rw [harith]
          rfl


/-- C1: for every accepted HYMN TSV input (with distinct header names, the
only case Python's dict-based reader keeps faithful), each returned item's
verse list is exactly the spec's fold of the raw row, in header order,
trimmed, with empty and `-` entries dropped and escapes replaced; and a row
whose fold is empty makes the whole parse fail with the line-numbered
at-least-one-verse error. -/
theorem hymn_bulk_verse_folding (f : List String) (rawRows : List (List String))
    (hnd : f.Nodup) :
    (∀ items, parse_tsv_bytes f rawRows "HYMN" = Except.ok (ParseResult.hymnItems items) →
      items.length = (rawRows.filter (fun r => ¬ r.isEmpty)).length ∧
      (∀ i (hi : i < items.length) (hi2 : i < (rawRows.filter (fun r => ¬ r.isEmpty)).length),
        (items.get ⟨i, hi⟩).verses =
          claimVerses f ((rawRows.filter (fun r => ¬ r.isEmpty)).get ⟨i, hi2⟩)) ∧
      (∀ i (hi : i < items.length), (items.get ⟨i, hi⟩).verses ≠ [])) ∧
    (∀ i (hi : i < (rawRows.filter (fun r => ¬ r.isEmpty)).length),
      require_header f HYMN_BASE_COLUMNS = Except.ok () →
      f.any (fun c => pyStartsWith c versePref) = true →
      (∀ k (hk : k < i),
        hymnRowAccepted f ((rawRows.filter (fun r => ¬ r.isEmpty)).get ⟨k, by omega⟩) = true) →
      require_non_empty
        (strip_row (makeRow f ((rawRows.filter (fun r => ¬ r.isEmpty)).get ⟨i, hi⟩)))
        HYMN_BASE_COLUMNS 0 = Except.ok () →
      (∃ bv, extract_verses
        (strip_row (makeRow f ((rawRows.filter (fun r => ¬ r.isEmpty)).get ⟨i, hi⟩))) f =
        Except.ok bv) →
      claimVerses f ((rawRows.filter (fun r => ¬ r.isEmpty)).get ⟨i, hi⟩) = [] →
      parse_tsv_bytes f rawRows "HYMN" =
        Except.error (PyErr.valueError s!"Row {2 + i}: at least one verse is required.")) := by
  constructor
  · intro items h
    by_cases hfe : f.isEmpty
    · rw [parse_tsv_bytes, if_pos hfe] at h
      exact Except.noConfusion h
    · rw [parse_tsv_bytes, if_neg hfe, if_pos rfl] at h
      cases hrh : require_header f HYMN_BASE_COLUMNS with
      | error e => rw [hrh] at h; exact Except.noConfusion h
      | ok u =>
        rw [hrh] at h
        cases u
        rw [except_ok_bind] at h
        by_cases hany : f.any (fun c => pyStartsWith c versePref)
        · rw [if_neg (by simpa using hany)] at h
          cases hloop : hymnRowsLoop f (rawRows.filter (fun r => ¬ r.isEmpty)) 2 with
          | error e => rw [hloop] at h; exact Except.noConfusion h
          | ok items' =>
            rw [hloop] at h
            rw [except_ok_bind] at h
            by_cases hempty : items'.isEmpty
            · rw [if_pos hempty] at h; exact Except.noConfusion h
            · rw [if_neg hempty] at h
              have hitems : items' = items := by
                cases h
                rfl
              subst hitems
              obtain ⟨hlen, hall⟩ := hymnRowsLoop_ok f _ 2 items' hloop
              refine ⟨hlen, ?_, ?_⟩
              · intro i hi hi2
                obtain ⟨bv, hbv, hv, _⟩ := hall i hi hi2
                rw [hv, extract_verses_snd f _ hnd bv hbv]
              · intro i hi
                obtain ⟨bv, _, hv, hne⟩ := hall i hi (by omega)
                rw [hv]
                exact hne
        · rw [if_pos (by simpa using hany)] at h
          exact Except.noConfusion h
  · intro i hi hrh hany hprev hreq hext hfold
    have hfe : f.isEmpty = false := by
      cases f with
      | nil => simp at hany
      | cons a f => rfl
    rw [parse_tsv_bytes, if_neg (by simp [hfe]), if_pos rfl, hrh, except_ok_bind,
      if_neg (by simpa using hany)]
    rw [hymnRowsLoop_fold_empty f hnd _ 2 i hi hprev hreq hext hfold]
    rfl

def wHymnHeader : List String := HYMN_BASE_COLUMNS ++ ["verse_1", "verse_2"]
def wHymnRows : List (List String) :=
  [["12", "Amazing Grace", "Praise", "NEW BRITAIN", "H-43", "Ps 100", "Refrain", "Chorus text",
    "First verse", "-"]]

/-- The parsed items for the witness input (the spec's hymn-import scenario:
`verse_1 = "First verse"`, `verse_2 = "-"`, placeholder dropped). -/
def wHymnItems : List HymnItem :=
  [{ hymn := [(some "hymn_number", PyVal.vStr "12"),
              (some "hymn_title", PyVal.vStr "Amazing Grace"),
              (some "classification", PyVal.vStr "Praise"),
              (some "tune_ref", PyVal.vStr "NEW BRITAIN"),
              (some "cross_ref", PyVal.vStr "H-43"),
              (some "scripture", PyVal.vStr "Ps 100"),
              (some "chorus_title", PyVal.vStr "Refrain"),
              (some "chorus", PyVal.vStr "Chorus text")],
     verses := ["First verse"] }]

/-- Witness for C1 at the spec's hymn bulk-import scenario. -/
theorem hymn_bulk_verse_folding_witness :
    (wHymnItems.get ⟨0, by decide⟩).verses =
      claimVerses wHymnHeader ((wHymnRows.filter (fun r => ¬ r.isEmpty)).get ⟨0, by decide⟩) :=
  ((hymn_bulk_verse_folding wHymnHeader wHymnRows (by decide)).1 wHymnItems
    (by rfl)).2.1 0 (by decide) (by decide)


theorem parse_date_lineNo (row : PyDict) (n m : Nat) (r2 : PyDict)
    (h : parse_date row n = Except.ok r2) : parse_date row m = Except.ok r2 := by
  unfold parse_date at *
  cases hdg : dictGet row (some "date_posted") with
  | none =>
    rw [hdg] at h
    simp only [] at h
    exact Except.noConfusion h
  | some v =>
    rw [hdg] at h
    cases v with
    | vStr s =>
      simp only [] at h ⊢
      cases hiso : dateFromIso s with
      | none =>
        rw [hiso] at h
        simp only [] at h
        exact Except.noConfusion h
      | some d =>
        rw [hiso] at h
        simp only [] at h ⊢
        exact h
    | vNone => simp only [] at h; exact Except.noConfusion h
    | vList l => simp only [] at h; exact Except.noConfusion h
    | vDate d => simp only [] at h; exact Except.noConfusion h

theorem lessonRowsLoop_ok (f required : List String) :
    ∀ (rows : List (List String)) (n : Nat) (out : List PyDict),
      lessonRowsLoop f required rows n = Except.ok out →
      out.length = rows.length ∧
      ∀ i (hi : i < out.length) (hi2 : i < rows.length),
        require_non_empty (strip_row (makeRow f (rows.get ⟨i, hi2⟩))) required 0 =
          Except.ok () ∧
        parse_date (strip_row (makeRow f (rows.get ⟨i, hi2⟩))) 0 =
          Except.ok (out.get ⟨i, hi⟩) := by
  intro rows
  induction rows with
  | nil =>
    intro n out h
    simp only [lessonRowsLoop] at h
    cases h
    exact ⟨rfl, fun i hi hi2 => absurd hi2 (by simp)⟩
  | cons raw rest ih =>
    intro n out h
    simp only [lessonRowsLoop] at h
    cases h1 : require_non_empty (strip_row (makeRow f raw)) required n with
    | error e => rw [h1] at h; simp only [except_error_bind] at h; exact Except.noConfusion h
    | ok u =>
      rw [h1] at h
      simp only [except_ok_bind] at h
      cases h2 : parse_date (strip_row (makeRow f raw)) n with
      | error e => rw [h2] at h; simp only [except_error_bind] at h; exact Except.noConfusion h
      | ok r2 =>
        rw [h2] at h
        simp only [except_ok_bind] at h
        cases h3 : lessonRowsLoop f required rest (n + 1) with
        | error e => rw [h3] at h; simp only [except_error_bind] at h; exact Except.noConfusion h
        | ok restOut =>
          rw [h3] at h
          simp only [except_ok_bind] at h
          cases h
          obtain ⟨hlen, hall⟩ := ih (n + 1) restOut h3
          constructor
          · simp [hlen]
          · intro i hi hi2
            cases i with
            | zero =>
              cases u
              exact ⟨req_lineNo_irrelevant _ _ n 0 h1, parse_date_lineNo _ n 0 r2 h2⟩
            | succ i =>
              have hi' : i < restOut.length := by simpa using hi
              have hi2' : i < rest.length := by simpa using hi2
              exact hall i hi' hi2'

theorem lesson_row_fields (f : List String) (hnd : f.Nodup) (raw : List String)
    (required : List String) (r2 : PyDict)
    (hreq : require_non_empty (strip_row (makeRow f raw)) required 0 = Except.ok ())
    (hpd : parse_date (strip_row (makeRow f raw)) 0 = Except.ok r2) :
    (∀ j (hj : j < f.length), f.get ⟨j, hj⟩ = "date_posted" →
      ∃ hjr : j < raw.length, ∃ d, dateFromIso (pyStrip (raw.get ⟨j, hjr⟩)) = some d ∧
        dictGet r2 (some "date_posted") = some (PyVal.vDate d)) ∧
    (∀ c ∈ required, c ≠ "date_posted" →
      ∀ j (hj : j < f.length), f.get ⟨j, hj⟩ = c →
        ∃ hjr : j < raw.length,
          dictGet r2 (some c) = some (PyVal.vStr (pyStrip (raw.get ⟨j, hjr⟩))) ∧
          pyStrip (raw.get ⟨j, hjr⟩) ≠ "") := by
  unfold parse_date at hpd
  cases hdg : dictGet (strip_row (makeRow f raw)) (some "date_posted") with
  | none =>
    rw [hdg] at hpd
    simp only [] at hpd
    exact Except.noConfusion hpd
  | some v =>
    rw [hdg] at hpd
    cases v with
    | vNone => simp only [] at hpd; exact Except.noConfusion hpd
    | vList l => simp only [] at hpd; exact Except.noConfusion hpd
    | vDate d => simp only [] at hpd; exact Except.noConfusion hpd
    | vStr s =>
      simp only [] at hpd
      cases hiso : dateFromIso s with
      | none =>
        rw [hiso] at hpd
        simp only [] at hpd
        exact Except.noConfusion hpd
      | some d =>
        rw [hiso] at hpd
        simp only [] at hpd
        have hr2 : r2 = dictInsert (strip_row (makeRow f raw)) (some "date_posted")
            (PyVal.vDate d) := by
          cases hpd
          rfl
        constructor
        · intro j hj hjc
          have hlook := dictGet_stripped_makeRow f raw hnd j hj
          rw [hjc] at hlook
          by_cases hjr : j < raw.length
          · rw [dif_pos hjr] at hlook
            rw [hlook] at hdg
            have hs : s = pyStrip (raw.get ⟨j, hjr⟩) := by
              cases hdg
              rfl
            refine ⟨hjr, d, ?_, ?_⟩
            · rw [← hs]; exact hiso
            · rw [hr2, dictGet_dictInsert]
              rw [if_pos rfl]
          · rw [dif_neg hjr] at hlook
            rw [hlook] at hdg
            exact PyVal.noConfusion (Option.some.inj hdg)
        · intro c hc hcd j hj hjc
          have hcb : colBad (strip_row (makeRow f raw)) c = false :=
            (req_ok_iff _ required 0).mp hreq c hc
          have hlook := dictGet_stripped_makeRow f raw hnd j hj
          rw [hjc] at hlook
          by_cases hjr : j < raw.length
          · rw [dif_pos hjr] at hlook
            refine ⟨hjr, ?_, ?_⟩
            · rw [hr2, dictGet_dictInsert]
              rw [if_neg (by simpa using hcd), hlook]
            · unfold colBad at hcb
              rw [hlook] at hcb
              intro hce
              rw [hce] at hcb
              exact Bool.noConfusion hcb
          · rw [dif_neg hjr] at hlook
            unfold colBad at hcb
            rw [hlook] at hcb
            exact Bool.noConfusion hcb


/-- C2: for every accepted LESSON/DEVOTIONAL TSV input (with distinct header
names), the parser returns exactly one mapping per non-blank data row, in
input order; each mapping's `date_posted` is the date parsed from that row's
ISO `YYYY-MM-DD` string, and every other required field is the
whitespace-trimmed, non-empty string from the matching header position. -/
theorem lesson_devotional_rows (f : List String) (rawRows : List (List String))
    (t : String) (required : List String) (rows : List PyDict)
    (hnd : f.Nodup)
    (hty : REQUIRED_COLUMNS_BY_TYPE t = some required)
    (hok : parse_tsv_bytes f rawRows t = Except.ok (ParseResult.lessonRows rows)) :
    rows.length = (rawRows.filter (fun r => ¬ r.isEmpty)).length ∧
    ∀ i (hi : i < rows.length) (hi2 : i < (rawRows.filter (fun r => ¬ r.isEmpty)).length),
      (∀ j (hj : j < f.length), f.get ⟨j, hj⟩ = "date_posted" →
        ∃ hjr : j < ((rawRows.filter (fun r => ¬ r.isEmpty)).get ⟨i, hi2⟩).length, ∃ d,
          dateFromIso (pyStrip (((rawRows.filter (fun r => ¬ r.isEmpty)).get ⟨i, hi2⟩).get
            ⟨j, hjr⟩)) = some d ∧
          dictGet (rows.get ⟨i, hi⟩) (some "date_posted") = some (PyVal.vDate d)) ∧
      (∀ c ∈ required, c ≠ "date_posted" →
        ∀ j (hj : j < f.length), f.get ⟨j, hj⟩ = c →
          ∃ hjr : j < ((rawRows.filter (fun r => ¬ r.isEmpty)).get ⟨i, hi2⟩).length,
            dictGet (rows.get ⟨i, hi⟩) (some c) =
              some (PyVal.vStr (pyStrip (((rawRows.filter (fun r => ¬ r.isEmpty)).get
                ⟨i, hi2⟩).get ⟨j, hjr⟩))) ∧
            pyStrip (((rawRows.filter (fun r => ¬ r.isEmpty)).get ⟨i, hi2⟩).get ⟨j, hjr⟩)
              ≠ "") := by
  have hnotHymn : t ≠ "HYMN" := by
    intro ht
    rw [ht] at hty
    simp [REQUIRED_COLUMNS_BY_TYPE] at hty
  by_cases hfe : f.isEmpty
  · rw [parse_tsv_bytes, if_pos hfe] at hok
    exact Except.noConfusion hok
  · rw [parse_tsv_bytes, if_neg hfe, if_neg hnotHymn, hty] at hok
    simp only [] at hok
    cases hrh : require_header f required with
    | error e => rw [hrh] at hok; exact Except.noConfusion hok
    | ok u =>
      rw [hrh] at hok
      cases u
      rw [except_ok_bind] at hok
      cases hloop : lessonRowsLoop f required (rawRows.filter (fun r => ¬ r.isEmpty)) 2 with
      | error e => rw [hloop] at hok; exact Except.noConfusion hok
      | ok out =>
        rw [hloop] at hok
        rw [except_ok_bind] at hok
        by_cases hempty : out.isEmpty
        · rw [if_pos hempty] at hok; exact Except.noConfusion hok
        · rw [if_neg hempty] at hok
          have hout : out = rows := by
            cases hok
            rfl
          subst hout
          obtain ⟨hlen, hall⟩ := lessonRowsLoop_ok f required _ 2 out hloop
          refine ⟨hlen, ?_⟩
          intro i hi hi2
          obtain ⟨hreq, hpd⟩ := hall i hi hi2
          exact lesson_row_fields f hnd _ required _ hreq hpd

/-- Witness header and row for a devotional bulk import. -/
def wDevHeader : List String := ["citation", "verse_content", "date_posted"]

/-- One devotional data row; `verse_content` carries surrounding whitespace. -/
def wDevRows : List (List String) := [["John 3:16", " For God so loved ", "2025-01-15"]]

/-- The mapping the parser returns for `wDevRows`. -/
def wDevOutRows : List PyDict :=
  [[(some "citation", PyVal.vStr "John 3:16"),
    (some "verse_content", PyVal.vStr "For God so loved"),
    (some "date_posted", PyVal.vDate { year := 2025, month := 1, day := 15 })]]

/-- Witness for C2 on a concrete devotional import: the stored `date_posted`
is the date parsed from the row's ISO string. -/
theorem lesson_devotional_rows_witness :
    ∃ hjr : 2 < ((wDevRows.filter (fun r => ¬ r.isEmpty)).get ⟨0, by decide⟩).length, ∃ d,
      dateFromIso (pyStrip (((wDevRows.filter (fun r => ¬ r.isEmpty)).get ⟨0, by decide⟩).get
        ⟨2, hjr⟩)) = some d ∧
      dictGet (wDevOutRows.get ⟨0, by decide⟩) (some "date_posted") =
        some (PyVal.vDate d) :=
  ((lesson_devotional_rows wDevHeader wDevRows "DEVOTIONAL" REQUIRED_DEVOTIONAL_TSV_COLUMNS
      wDevOutRows (by decide) rfl (by rfl)).2 0 (by decide) (by decide)).1 2 (by decide) rfl


/-- C3: in every bulk-import path, a parse/validation error leaves the store
untouched — the parser runs to completion before any insert, a `ValueError`
becomes an HTTP 400, any other exception propagates as a 500, and a failure
inside the hymn insert loop is rolled back by the transaction. -/
theorem bulk_import_no_partial_writes
    (pdb : PostDB) (ddb : DevotionDB) (hdb : HymnDB)
    (f : List String) (rawRows : List (List String)) :
    (∀ e, parse_tsv_bytes f rawRows "LESSON" = Except.error e →
      create_post_bulk pdb f rawRows =
        (match e with
         | PyErr.valueError m => Except.error (ApiErr.http 400 m)
         | e => Except.error (ApiErr.crash e), pdb)) ∧
    (∀ e, parse_tsv_bytes f rawRows "DEVOTIONAL" = Except.error e →
      create_devotion_bulk ddb f rawRows =
        (match e with
         | PyErr.valueError m => Except.error (ApiErr.http 400 m)
         | e => Except.error (ApiErr.crash e), ddb)) ∧
    (∀ e, parse_tsv_bytes f rawRows "HYMN" = Except.error e →
      create_hymn_bulk hdb f rawRows =
        (match e with
         | PyErr.valueError m => Except.error (ApiErr.http 400 m)
         | e => Except.error (ApiErr.crash e), hdb)) ∧
    (∀ items e, parse_tsv_bytes f rawRows "HYMN" = Except.ok (ParseResult.hymnItems items) →
      bulkInsertHymnsLoop hdb items = Except.error e →
      create_hymn_bulk hdb f rawRows = (Except.error (ApiErr.crash e), hdb)) := by
  refine ⟨?_, ?_, ?_, ?_⟩
  · intro e h
    unfold create_post_bulk
    rw [h]
    cases e <;> rfl
  · intro e h
    unfold create_devotion_bulk
    rw [h]
    cases e <;> rfl
  · intro e h
    unfold create_hymn_bulk
    rw [h]
    cases e <;> rfl
  · intro items e hok hloop
    unfold create_hymn_bulk
    rw [hok]
    simp only [] 
    rw [hloop]

/-- The lesson bulk-import scenario of the spec: the full required header and
one data row whose `date_posted` is `2025-01-15`. -/
def wLessonHeader : List String := REQUIRED_LESSON_TSV_COLUMNS

/-- The scenario's single data row (all fields non-empty). -/
def wLessonRow : List String :=
  ["Series A", "Who am I?", "Grace", "A hook", "Q and A", "A reflection", "A story",
   "A prayer", "A guide", "2025-01-15"]

/-- An empty lesson store. -/
def wPdb : PostDB := { rows := [], nextId := 1, now := 0 }

/-- A five-row lesson batch whose third data row has a malformed date. -/
def wBadDateRows : List (List String) :=
  [wLessonRow, wLessonRow,
   ["S", "Q", "T", "H", "B", "R", "St", "P", "G", "not-a-date"],
   wLessonRow, wLessonRow]

/-- Witness for C3: the 5-row batch with a bad date in row 3 (input line 4)
is rejected as a 400 and commits nothing, on an empty store. -/
theorem bulk_import_no_partial_writes_witness :
    create_post_bulk wPdb wLessonHeader wBadDateRows =
      (Except.error (ApiErr.http 400 "Row 4: date_posted must be YYYY-MM-DD."), wPdb) :=
  (bulk_import_no_partial_writes wPdb { rows := [], nextId := 1, now := 0 }
    { rows := [], nextId := 1, now := 0 } wLessonHeader wBadDateRows).1
    (PyErr.valueError "Row 4: date_posted must be YYYY-MM-DD.") (by rfl)

/-- The record the scenario is meant to create. -/
def wLessonPost : DailyPost :=
  { id := 1, series_title := "Series A", personal_question := "Who am I?",
    theme := "Grace", opening_hook := "A hook", biblical_qa := "Q and A",
    reflection := "A reflection", story := "A story", prayer := "A prayer",
    activity_guide := "A guide",
    date_posted := { year := 2025, month := 1, day := 15 }, created_at := 0 }

/-- C4: the mounted `POST /posts` route crashes on the spec's lesson
bulk-import scenario — its body calls `parse_tsv_bytes(raw)` without the
required content-type argument, raising `TypeError` before any work — while
the same input through the (unmounted) `lessons._create_post` helper, which
passes `'LESSON'`, produces exactly one record with `date_posted 2025-01-15`.
The claim's promised outcome therefore fails on the wired endpoint: this is
the code bug, not a spec error. -/
theorem create_post_scenario_typeerror :
    fastapi_create_post_bulk wPdb wLessonHeader [wLessonRow] =
      (Except.error (ApiErr.crash PyErr.typeError), wPdb) ∧
    create_post_bulk wPdb wLessonHeader [wLessonRow] =
      (Except.ok [wLessonPost],
       { rows := [wLessonPost], nextId := 2, now := 1 }) ∧
    wLessonPost.date_posted = { year := 2025, month := 1, day := 15 } :=
  ⟨rfl, by rfl, rfl⟩

/-- A store holding one devotional with id 1. -/
def wDdb : DevotionDB :=
  { rows := [{ id := 1, citation := "John 3:16", verse_content := "For God so loved",
               date_posted := { year := 2025, month := 1, day := 1 }, created_at := 0 }],
    nextId := 2, now := 1 }

/-- C6: deleting an existing devotional does not delete it and does not
report success — the handler's `d.cover_image` access hits an attribute the
model does not define (the field is commented out), raising `AttributeError`
with the record left in place; only the not-found branch behaves as the spec
says.  The spec describes the intended hard delete: this is the code bug. -/
theorem delete_devotion_attribute_crash :
    delete_devotion wDdb 1 = (Except.error (ApiErr.crash PyErr.attributeError), wDdb) ∧
    wDdb.rows.length = 1 ∧
    delete_devotion { rows := [], nextId := 1, now := 0 } 1 =
      (Except.error (ApiErr.http 404 "Devotional not found"),
       { rows := [], nextId := 1, now := 0 }) :=
  ⟨rfl, rfl, rfl⟩

/-- A hymn header with one verse column. -/
def wHymnHeaderC10 : List String := HYMN_BASE_COLUMNS ++ ["verse_1"]

/-- A data row with one field more than the header declares. -/
def wOverflowRow : List String :=
  ["1", "A title", "Praise", "TUNE", "X-1", "Ps 1", "Refrain", "Chorus body",
   "Verse text", "EXTRA FIELD"]

/-- C10: the HYMN branch is not total over inputs that pass header
validation: a data row with more tab-separated fields than the header makes
the reader store the overflow under its `None` rest key, and `_extract_verses`
then raises `AttributeError` (not the descriptive line-numbered `ValueError`)
while rebuilding the base-field dict. -/
theorem hymn_overflow_row_crash :
    parse_tsv_bytes wHymnHeaderC10 [wOverflowRow] "HYMN" =
      Except.error PyErr.attributeError ∧
    require_header wHymnHeaderC10 HYMN_BASE_COLUMNS = Except.ok () ∧
    wHymnHeaderC10.any (fun c => pyStartsWith c versePref) = true ∧
    (∀ m, parse_tsv_bytes wHymnHeaderC10 [wOverflowRow] "HYMN" ≠
      Except.error (PyErr.valueError m)) := by
  refine ⟨by rfl, by rfl, by rfl, ?_⟩
  intro m h
  rw [show parse_tsv_bytes wHymnHeaderC10 [wOverflowRow] "HYMN" =
    Except.error PyErr.attributeError from rfl] at h
  exact PyErr.noConfusion (Except.error.inj h)



/-- C5: partial updates apply exactly the provided (non-null) fields, and a
request providing zero fields fails as a client error instead of succeeding
as a no-op; stated for the lesson and devotional patch paths. -/
theorem partial_update_semantics (pdb : PostDB) (postId : Nat) (u : PostPatch)
    (ddb : DevotionDB) (devId : Nat) (v : DevotionPatch) :
    (postPatchCount u = 0 →
      edit_post_endpoint pdb postId u =
        (Except.error (ApiErr.http 400 "no fields provided"), pdb)) ∧
    (postPatchCount u ≠ 0 → ∀ p, pdb.rows.find? (fun q => q.id = postId) = some p →
      (edit_post_endpoint pdb postId u).1 = Except.ok [applyPostPatch p u] ∧
      (applyPostPatch p u).id = p.id ∧
      (applyPostPatch p u).created_at = p.created_at ∧
      (applyPostPatch p u).series_title = u.series_title.getD p.series_title ∧
      (applyPostPatch p u).personal_question = u.personal_question.getD p.personal_question ∧
      (applyPostPatch p u).theme = u.theme.getD p.theme ∧
      (applyPostPatch p u).opening_hook = u.opening_hook.getD p.opening_hook ∧
      (applyPostPatch p u).biblical_qa = u.biblical_qa.getD p.biblical_qa ∧
      (applyPostPatch p u).reflection = u.reflection.getD p.reflection ∧
      (applyPostPatch p u).story = u.story.getD p.story ∧
      (applyPostPatch p u).prayer = u.prayer.getD p.prayer ∧
      (applyPostPatch p u).activity_guide = u.activity_guide.getD p.activity_guide ∧
      (applyPostPatch p u).date_posted = u.date_posted.getD p.date_posted) ∧
    (devotionPatchCount v = 0 →
      edit_devotion_endpoint ddb devId v =
        (Except.error (ApiErr.http 400 "no fields provided"), ddb)) ∧
    (devotionPatchCount v ≠ 0 → ∀ d, ddb.rows.find? (fun q => q.id = devId) = some d →
      (edit_devotion_endpoint ddb devId v).1 = Except.ok [applyDevotionPatch d v] ∧
      (applyDevotionPatch d v).id = d.id ∧
      (applyDevotionPatch d v).created_at = d.created_at ∧
      (applyDevotionPatch d v).citation = v.citation.getD d.citation ∧
      (applyDevotionPatch d v).verse_content = v.verse_content.getD d.verse_content ∧
      (applyDevotionPatch d v).date_posted = v.date_posted.getD d.date_posted) := by
  refine ⟨?_, ?_, ?_, ?_⟩
  · intro h
    unfold edit_post_endpoint
    rw [if_pos h]
  · intro h p hfind
    unfold edit_post_endpoint
    rw [if_neg h]
    unfold edit_post
    rw [hfind]
    simp only []
    and_intros <;> (first | rfl | trivial)
  · intro h
    unfold edit_devotion_endpoint
    rw [if_pos h]
  · intro h d hfind
    unfold edit_devotion_endpoint
    rw [if_neg h]
    unfold edit_devotion
    rw [hfind]
    simp only []
    and_intros <;> (first | rfl | trivial)

/-- A one-field patch setting only the theme. -/
def wThemePatch : PostPatch := { theme := some "New theme" }

/-- A store holding the scenario post. -/
def wPdb1 : PostDB := { rows := [wLessonPost], nextId := 2, now := 1 }

/-- Witness for C5: patching only `theme` on the stored post returns the
record with the new theme and every other field untouched. -/
theorem partial_update_semantics_witness :
    (edit_post_endpoint wPdb1 1 wThemePatch).1 =
      Except.ok [applyPostPatch wLessonPost wThemePatch] ∧
    (applyPostPatch wLessonPost wThemePatch).theme =
      (wThemePatch.theme).getD wLessonPost.theme ∧
    (applyPostPatch wLessonPost wThemePatch).story = wLessonPost.story :=
  have happ := ((partial_update_semantics wPdb1 1 wThemePatch
      { rows := [], nextId := 1, now := 0 } 1 {}).2.1 (by decide) wLessonPost (by rfl))
  ⟨happ.1, happ.2.2.2.2.2.1, happ.2.2.2.2.2.2.2.2.2.1⟩


/-- C7: `total_pages` is `ceil(total/10)` (0 on an empty table), and any page
strictly past the last one — page 1 of an empty table included — yields an
empty item list rather than an error. -/
theorem list_posts_pagination (db : PostDB) (page : Nat) :
    ((list_posts db page).total_pages =
      if db.rows.length = 0 then 0 else pyCeilDiv db.rows.length 10) ∧
    ((list_posts db page).total_pages < page → (list_posts db page).posts = []) := by
  have hqlen : (allPostsMetaOrdered db).length = db.rows.length := by
    unfold allPostsMetaOrdered
    exact List.length_mergeSort db.rows
  constructor
  · unfold list_posts
    simp only [hqlen]
    rcases Nat.eq_zero_or_pos db.rows.length with h0 | hpos
    · rw [h0]
      rfl
    · rw [if_pos hpos, if_neg (by omega)]
  · intro hlt
    unfold list_posts at hlt ⊢
    simp only [hqlen] at hlt
    simp only []
    apply List.take_eq_nil_of_eq_nil
    apply List.drop_eq_nil_of_le
    rw [hqlen]
    rcases Nat.eq_zero_or_pos db.rows.length with h0 | hpos
    · omega
    · rw [if_pos hpos] at hlt
      unfold pyCeilDiv at hlt
      have hdm := Nat.div_add_mod (db.rows.length + 10 - 1) 10
      have hmlt : (db.rows.length + 10 - 1) % 10 < 10 := Nat.mod_lt _ (by omega)
      omega

/-- Witness for C7: one stored post, page 999 → empty page. -/
theorem list_posts_pagination_witness :
    (list_posts wPdb1 999).posts = [] :=
  (list_posts_pagination wPdb1 999).2 (by
    unfold list_posts allPostsMetaOrdered
    simp [wPdb1, pyCeilDiv])


/-- C8: inserting a hymn whose `hymn_number` already exists fails with the
distinguishable integrity/conflict error and leaves the store — including the
first inserted hymn — exactly as it was; nothing is overwritten. -/
theorem hymn_number_conflict (db : HymnDB) (n : Nat) (t c tr : String) (vs : List String)
    (h : Hymn) (hmem : h ∈ db.rows) (hn : h.hymn_number = n)
    (ht : ¬ pyStrip t = "") (hc : ¬ pyStrip c = "") (htr : ¬ pyStrip tr = "")
    (hvs : vs ≠ []) :
    create_hymn_single db (some n) (some t) (some c) (some tr) Option.none Option.none
      Option.none Option.none (some vs) =
      (Except.error (ApiErr.crash PyErr.integrityError), db) := by
  have hm : hymnMissingFields (some n) (some t) (some c) (some tr) (some vs) = [] := by
    unfold hymnMissingFields blankOpt
    simp [ht, hc, htr, hvs]
  unfold create_hymn_single
  rw [hm]
  rw [if_neg (by intro hne; exact hne rfl)]
  simp only []
  unfold hymnObjectsCreate
  rw [if_pos (List.any_eq_true.mpr ⟨h, hmem, by simp [hn]⟩)]


/-- An empty hymn store. -/
def wHdb0 : HymnDB := { rows := [], nextId := 1, now := 0 }

/-- The hymn stored by the first witness insert. -/
def wHymn1 : Hymn :=
  { id := 1, hymn_number := 5, hymn_title := "A title", classification := "Praise",
    tune_ref := "TUNE", cross_ref := "", scripture := "", chorus_title := "",
    chorus := "", verses := ["v1"], created_at := 0 }

/-- The store after the first witness insert. -/
def wHdb1 : HymnDB := { rows := [wHymn1], nextId := 2, now := 1 }

/-- Witness for C8: the first insert of hymn number 5 succeeds; a second
insert with the same number fails with the conflict error and leaves the
store, and the first hymn, unchanged. -/
theorem hymn_number_conflict_witness :
    create_hymn_single wHdb0 (some 5) (some "A title") (some "Praise") (some "TUNE")
      Option.none Option.none Option.none Option.none (some ["v1"]) =
      (Except.ok [wHymn1], wHdb1) ∧
    create_hymn_single wHdb1 (some 5) (some "B title") (some "Praise") (some "TUNE")
      Option.none Option.none Option.none Option.none (some ["v2"]) =
      (Except.error (ApiErr.crash PyErr.integrityError), wHdb1) :=
  ⟨by rfl,
   hymn_number_conflict wHdb1 5 "B title" "Praise" "TUNE" ["v2"] wHymn1
     (by decide) rfl (by decide) (by decide) (by decide) (by decide)⟩

theorem postMetaLE_trans (a b c : DailyPost) (hab : postMetaLE a b = true)
    (hbc : postMetaLE b c = true) : postMetaLE a c = true := by
  rcases a with ⟨_, _, _, _, _, _, _, _, _, _, ⟨ay, am, ad⟩, ac⟩
  rcases b with ⟨_, _, _, _, _, _, _, _, _, _, ⟨by1, bm, bd⟩, bc⟩
  rcases c with ⟨_, _, _, _, _, _, _, _, _, _, ⟨cy, cm, cd⟩, cc⟩
  simp only [postMetaLE, dateLtProp, decide_eq_true_eq, PyDate.mk.injEq] at hab hbc ⊢
  omega

theorem postMetaLE_total (a b : DailyPost) : postMetaLE a b || postMetaLE b a := by
  rcases a with ⟨_, _, _, _, _, _, _, _, _, _, ⟨ay, am, ad⟩, ac⟩
  rcases b with ⟨_, _, _, _, _, _, _, _, _, _, ⟨by1, bm, bd⟩, bc⟩
  simp only [postMetaLE, dateLtProp, PyDate.mk.injEq, Bool.or_eq_true, decide_eq_true_eq]
  omega

theorem devotionMetaLE_trans (a b c : DailyDevotion) (hab : devotionMetaLE a b = true)
    (hbc : devotionMetaLE b c = true) : devotionMetaLE a c = true := by
  rcases a with ⟨_, _, _, ⟨ay, am, ad⟩, ac⟩
  rcases b with ⟨_, _, _, ⟨by1, bm, bd⟩, bc⟩
  rcases c with ⟨_, _, _, ⟨cy, cm, cd⟩, cc⟩
  simp only [devotionMetaLE, dateLtProp, decide_eq_true_eq, PyDate.mk.injEq] at hab hbc ⊢
  omega

theorem devotionMetaLE_total (a b : DailyDevotion) :
    devotionMetaLE a b || devotionMetaLE b a := by
  rcases a with ⟨_, _, _, ⟨ay, am, ad⟩, ac⟩
  rcases b with ⟨_, _, _, ⟨by1, bm, bd⟩, bc⟩
  simp only [devotionMetaLE, dateLtProp, PyDate.mk.injEq, Bool.or_eq_true, decide_eq_true_eq]
  omega

/-- C9: every page of the default lesson listing, and the full default
devotional listing, is ordered by `date_posted` descending with ties broken
by `created_at` descending. -/
theorem default_listing_order (pdb : PostDB) (page : Nat) (ddb : DevotionDB) :
    ((list_posts pdb page).posts.Pairwise (fun a b =>
      dateLtProp b.date_posted a.date_posted ∨
        (b.date_posted = a.date_posted ∧ b.created_at ≤ a.created_at))) ∧
    ((list_devotions ddb).Pairwise (fun a b =>
      dateLtProp b.date_posted a.date_posted ∨
        (b.date_posted = a.date_posted ∧ b.created_at ≤ a.created_at))) := by
  constructor
  · have hs := List.sorted_mergeSort
      (fun a b c => postMetaLE_trans a b c) (fun a b => postMetaLE_total a b) pdb.rows
    have hs2 : (allPostsMetaOrdered pdb).Pairwise (fun a b =>
        dateLtProp b.date_posted a.date_posted ∨
          (b.date_posted = a.date_posted ∧ b.created_at ≤ a.created_at)) := by
      unfold allPostsMetaOrdered
      exact hs.imp (fun h => by simpa [postMetaLE, decide_eq_true_eq] using h)
    have hsub : ((list_posts pdb page).posts).Sublist (allPostsMetaOrdered pdb) := by
      unfold list_posts
      simp only []
      exact (List.take_sublist _ _).trans (List.drop_sublist _ _)
    exact hs2.sublist hsub
  · have hs := List.sorted_mergeSort
      (fun a b c => devotionMetaLE_trans a b c) (fun a b => devotionMetaLE_total a b) ddb.rows
    unfold list_devotions allDevotionsMetaOrdered
    exact hs.imp (fun h => by simpa [devotionMetaLE, decide_eq_true_eq] using h)

end Lodge
